import Mathlib

/-!
Verification of the iam-convert format-conversion engine.

The development shallowly embeds the TypeScript sources of the
`@cloud-copilot/iam-convert` package: the `StringBuffer` line buffer,
the four format converters (Terraform, CloudFormation, CDK TypeScript,
CDK Python) and the `convert` dispatcher.  Mutable buffer state is
modelled by explicit state passing; JavaScript truthiness checks on
strings (`""` is falsy) and on `Option`-like absent values are made
explicit.  The policy model consumed by the converters is an external
library; it is embedded as a structure exposing exactly the accessors
the converters read (sid, effect, action/resource/principal lists and
classifications, conditions, raw JSON projection), following the
package's input contract.
-/

set_option maxHeartbeats 1000000

/-- Repeat a string `n` times, as JavaScript `String.prototype.repeat`. -/
def strRepeat (s : String) : Nat → String
  | 0 => ""
  | n + 1 => s ++ strRepeat s n

theorem strRepeat_succ (s : String) (n : Nat) :
    strRepeat s (n + 1) = s ++ strRepeat s n := rfl

@[simp] theorem strRepeat_zero (s : String) : strRepeat s 0 = "" := rfl

/-! ## The line buffer (`src/util/StringBuffer.ts`)

The `StringBuffer` class holds a line array, an indent level (a
JavaScript number, embedded as `Int` since `unindent` computes
`Math.max(level - 1, 0)`), an indent unit and a line separator. -/

structure StringBuffer where
  buffer : List String
  indentLevel : Int
  indentBy : String
  lineSeparator : String
deriving Repr, DecidableEq

/-- Constructor: `indentBy ?? '  '`, `lineSeparator ?? '\n'` (nullish
coalescing: only an absent argument falls back to the default). -/
def StringBuffer.new (indentBy lineSeparator : Option String) : StringBuffer :=
  { buffer := []
    indentLevel := 0
    indentBy := indentBy.getD "  "
    lineSeparator := lineSeparator.getD "\n" }

/-- `pushLine(text)`: append one line prefixed by `indentBy.repeat(indentLevel)`. -/
def StringBuffer.pushLine (sb : StringBuffer) (text : String) : StringBuffer :=
  { sb with buffer := sb.buffer ++ [strRepeat sb.indentBy sb.indentLevel.toNat ++ text] }

/-- `indent()`: increase the indent level. -/
def StringBuffer.indent (sb : StringBuffer) : StringBuffer :=
  { sb with indentLevel := sb.indentLevel + 1 }

/-- `unindent()`: `this.indentLevel = Math.max(this.indentLevel - 1, 0)`. -/
def StringBuffer.unindent (sb : StringBuffer) : StringBuffer :=
  { sb with indentLevel := max (sb.indentLevel - 1) 0 }

/-- `withIndent(callback)`: indent, run the callback on the same buffer,
unindent afterwards. -/
def StringBuffer.withIndent (body : StringBuffer → StringBuffer) (sb : StringBuffer) :
    StringBuffer :=
  (body sb.indent).unindent

/-- `toString()`: join the lines with the configured separator
(JavaScript `Array.prototype.join`). -/
def StringBuffer.render (sb : StringBuffer) : String :=
  String.intercalate sb.lineSeparator sb.buffer

/-! ### Client operation sequences

A normally returning client of the buffer is a sequence of calls to
`pushLine`, `indent`, `unindent` and `withIndent` (whose body is again
such a sequence). -/

inductive BufOp where
  | push (text : String)
  | indent
  | unindent
  | nested (body : List BufOp)
deriving Repr

mutual

/-- Run a single buffer operation. -/
def applyOp (sb : StringBuffer) : BufOp → StringBuffer
  | .push t => sb.pushLine t
  | .indent => sb.indent
  | .unindent => sb.unindent
  | .nested body => StringBuffer.withIndent (fun b => applyOps b body) sb

/-- Run a sequence of buffer operations. -/
def applyOps (sb : StringBuffer) : List BufOp → StringBuffer
  | [] => sb
  | op :: rest => applyOps (applyOp sb op) rest

end

mutual

/-- One operation preserves nonnegativity of the indent level. -/
theorem applyOp_nonneg (sb : StringBuffer) (op : BufOp) (h : 0 ≤ sb.indentLevel) :
    0 ≤ (applyOp sb op).indentLevel := by
  cases op with
  | push t => exact h
  | indent => simp only [applyOp, StringBuffer.indent]; omega
  | unindent => simp only [applyOp, StringBuffer.unindent]; omega
  | nested body =>
      simp only [applyOp, StringBuffer.withIndent, StringBuffer.unindent]
      omega

/-- A sequence of operations preserves nonnegativity of the indent level. -/
theorem applyOps_nonneg (sb : StringBuffer) (ops : List BufOp) (h : 0 ≤ sb.indentLevel) :
    0 ≤ (applyOps sb ops).indentLevel := by
  cases ops with
  | nil => exact h
  | cons op rest => exact applyOps_nonneg (applyOp sb op) rest (applyOp_nonneg sb op h)

end

/-! ### Throwing callbacks

`withIndent` does not protect against a throw in the callback: the
exception propagates and the matching `unindent` is skipped.  A
throwing callback is modelled as a callback that runs some buffer
operations and then throws a value. -/

/-- Run a callback that may throw: the callback returns the mutated
buffer together with an optional thrown value.  On a throw the
exception propagates out of `withIndent` and the closing `unindent`
is not executed. -/
def StringBuffer.withIndentCatch (body : StringBuffer → StringBuffer × Option String)
    (sb : StringBuffer) : StringBuffer × Option String :=
  match body sb.indent with
  | (sb2, none) => (sb2.unindent, none)
  | (sb2, some e) => (sb2, some e)

/-- A callback that runs `ops` on the buffer and then throws `e`. -/
def throwingBody (ops : List BufOp) (e : String) :
    StringBuffer → StringBuffer × Option String :=
  fun sb => (applyOps sb ops, some e)

/-- Running only `pushLine` operations appends the indented lines and
leaves the indent level unchanged. -/
theorem applyOps_pushes (texts : List String) (sb : StringBuffer) :
    applyOps sb (texts.map BufOp.push)
      = { sb with buffer :=
            sb.buffer ++ texts.map (fun t => strRepeat sb.indentBy sb.indentLevel.toNat ++ t) } := by
  induction texts generalizing sb with
  | nil => simp [applyOps]
  | cons t rest ih =>
      simp only [List.map_cons, applyOps, applyOp, StringBuffer.pushLine]
      rw [ih]
      simp

/-! ## A relational description of buffer writers

`RunsTo f g` states that the buffer writer `f` appends exactly the
lines `g indentBy indentLevel` to any buffer whose indent level is
nonnegative, and restores the rest of the state. -/

def RunsTo (f : StringBuffer → StringBuffer) (g : String → Nat → List String) : Prop :=
  ∀ sb : StringBuffer, 0 ≤ sb.indentLevel →
    f sb = { sb with buffer := sb.buffer ++ g sb.indentBy sb.indentLevel.toNat }

theorem runsTo_pushLine (t : String) :
    RunsTo (fun sb => sb.pushLine t) (fun u l => [strRepeat u l ++ t]) := by
  intro sb _
  rfl

theorem runsTo_id : RunsTo (fun sb => sb) (fun _ _ => []) := by
  intro sb _
  simp

theorem runsTo_seq {f f' : StringBuffer → StringBuffer} {g g' : String → Nat → List String}
    (h1 : RunsTo f g) (h2 : RunsTo f' g') :
    RunsTo (fun sb => f' (f sb)) (fun u l => g u l ++ g' u l) := by
  intro sb h
  show f' (f sb) = _
  rw [h1 sb h]
  rw [h2 _ (by simpa using h)]
  simp

theorem runsTo_withIndent {f : StringBuffer → StringBuffer} {g : String → Nat → List String}
    (h1 : RunsTo f g) :
    RunsTo (StringBuffer.withIndent f) (fun u l => g u (l + 1)) := by
  intro sb h
  have hlvl : (sb.indentLevel + 1).toNat = sb.indentLevel.toNat + 1 := by omega
  have hmax : max (sb.indentLevel + 1 - 1) 0 = sb.indentLevel := by omega
  have hs : 0 ≤ sb.indent.indentLevel := by simp [StringBuffer.indent]; omega
  show (f sb.indent).unindent = _
  rw [h1 sb.indent hs]
  simp [StringBuffer.indent, StringBuffer.unindent, hlvl, hmax]
  all_goals omega

theorem runsTo_foldl {α : Type} (f : α → StringBuffer → StringBuffer)
    (g : α → String → Nat → List String) (H : ∀ a, RunsTo (f a) (g a)) (l : List α) :
    RunsTo (fun sb => l.foldl (fun b a => f a b) sb)
      (fun u lv => (l.map (fun a => g a u lv)).flatten) := by
  induction l with
  | nil => simpa using runsTo_id
  | cons a rest ih =>
      intro sb h
      simp only [List.foldl_cons]
      rw [show rest.foldl (fun b a => f a b) (f a sb)
            = (fun sb => rest.foldl (fun b a => f a b) sb) (f a sb) from rfl]
      rw [H a sb h]
      rw [ih _ (by simpa using h)]
      simp

theorem runsTo_congr {f : StringBuffer → StringBuffer} {g g' : String → Nat → List String}
    (h1 : RunsTo f g) (he : ∀ u l, g u l = g' u l) : RunsTo f g' := by
  intro sb h
  rw [h1 sb h, he]

theorem runsTo_cond (c : Prop) [Decidable c]
    {f f' : StringBuffer → StringBuffer} {g g' : String → Nat → List String}
    (h1 : RunsTo f g) (h2 : RunsTo f' g') :
    RunsTo (fun sb => if c then f sb else f' sb) (fun u l => if c then g u l else g' u l) := by
  by_cases hc : c <;> simp [hc] <;> assumption

/-- C9: starting from any buffer with nonnegative indent level (in
particular a freshly constructed one), every sequence of `pushLine`,
`indent`, `unindent` and normally returning `withIndent` operations
keeps the indentation depth a nonnegative integer; `unindent` at depth
zero silently leaves the depth at zero; and `pushLine` prefixes the
text with the indent unit repeated exactly the current depth. -/
theorem stringBuffer_depth_never_negative (sb : StringBuffer) (ops : List BufOp)
    (t : String) (h : 0 ≤ sb.indentLevel) :
    0 ≤ (applyOps sb ops).indentLevel
    ∧ (sb.indentLevel = 0 → sb.unindent.indentLevel = 0)
    ∧ (sb.pushLine t).buffer
        = sb.buffer ++ [strRepeat sb.indentBy sb.indentLevel.toNat ++ t] := by
  refine ⟨applyOps_nonneg sb ops h, ?_, rfl⟩
  intro h0
  simp [StringBuffer.unindent, h0]

/-- Witness for C9 at a fresh buffer and a concrete operation sequence
that unindents past zero inside a `withIndent` body. -/
theorem stringBuffer_depth_never_negative_witness :
    0 ≤ (StringBuffer.new none none).indentLevel
    ∧ (0 ≤ (applyOps (StringBuffer.new none none)
          [BufOp.unindent, BufOp.nested [BufOp.push "a", BufOp.unindent, BufOp.unindent],
           BufOp.push "b"]).indentLevel
       ∧ ((StringBuffer.new none none).indentLevel = 0 →
            (StringBuffer.new none none).unindent.indentLevel = 0)
       ∧ ((StringBuffer.new none none).pushLine "x").buffer
           = (StringBuffer.new none none).buffer
             ++ [strRepeat (StringBuffer.new none none).indentBy
                   (StringBuffer.new none none).indentLevel.toNat ++ "x"]) :=
  ⟨by decide, stringBuffer_depth_never_negative (StringBuffer.new none none)
      [BufOp.unindent, BufOp.nested [BufOp.push "a", BufOp.unindent, BufOp.unindent],
       BufOp.push "b"] "x" (by decide)⟩

/-- C10 counterexample: a callback that itself calls `indent()` and then
throws leaves the depth two greater than before the `withIndent` call,
not exactly one greater as the claim states for every throwing body. -/
theorem withIndent_throw_depth_counterexample :
    (StringBuffer.withIndentCatch (throwingBody [BufOp.indent] "boom")
        (StringBuffer.new none none)).2 = some "boom"
    ∧ (StringBuffer.withIndentCatch (throwingBody [BufOp.indent] "boom")
        (StringBuffer.new none none)).1.indentLevel = 2
    ∧ ((2 : Int) ≠ (StringBuffer.new none none).indentLevel + 1) := by
  refine ⟨rfl, rfl, by decide⟩

/-- C10 (amended): when the callback of `withIndent` throws, the
exception propagates and the matching decrement is skipped, so the
buffer is left exactly as the body left it; in particular a body that
only pushes lines before throwing leaves the depth exactly one greater
than before the call, and every line it pushed (indented one level
deeper) remains in the buffer — the operation is not atomic on error. -/
theorem withIndent_throw_behavior (sb : StringBuffer) (ops : List BufOp)
    (texts : List String) (e : String) (h : 0 ≤ sb.indentLevel) :
    (StringBuffer.withIndentCatch (throwingBody ops e) sb).2 = some e
    ∧ (StringBuffer.withIndentCatch (throwingBody ops e) sb).1 = applyOps sb.indent ops
    ∧ (StringBuffer.withIndentCatch (throwingBody (texts.map BufOp.push) e) sb).1.indentLevel
        = sb.indentLevel + 1
    ∧ (StringBuffer.withIndentCatch (throwingBody (texts.map BufOp.push) e) sb).1.buffer
        = sb.buffer
          ++ texts.map (fun t => strRepeat sb.indentBy (sb.indentLevel.toNat + 1) ++ t) := by
  have hrun := applyOps_pushes texts sb.indent
  have hlvl : (sb.indentLevel + 1).toNat = sb.indentLevel.toNat + 1 := by omega
  refine ⟨rfl, rfl, ?_, ?_⟩
  · show (applyOps sb.indent (texts.map BufOp.push)).indentLevel = sb.indentLevel + 1
    rw [hrun]
    rfl
  · show (applyOps sb.indent (texts.map BufOp.push)).buffer = _
    rw [hrun]
    simp [StringBuffer.indent, hlvl]

@[simp] theorem str_append_empty (s : String) : s ++ "" = s := by
  apply String.ext
  simp [String.data_append]

@[simp] theorem str_empty_append (s : String) : "" ++ s = s := rfl

@[simp] theorem flatten_singletons {α β : Type} (f : α → β) (l : List α) :
    (l.map (fun a => [f a])).flatten = l.map f := by
  induction l with
  | nil => rfl
  | cons a rest ih => simp [ih]

/-! ## The policy model

The converters read a pre-validated policy object supplied by the
upstream `@cloud-copilot/iam-policy` library through a fixed accessor
surface (input contract): document version and statements; per
statement sid, optional effect (Allow/Deny, defaulting to Allow),
action/not-action classification and lists, resource/not-resource
classification and lists, principal/not-principal classification and
lists with a single-universal-wildcard flag, and conditions; plus a raw
JSON projection consumed only by the YAML renderer.  `Action` and
`Resource` wrappers are embedded as the strings their `value()`
accessor returns. -/

inductive Effect where
  | allow
  | deny
deriving Repr, DecidableEq

structure Principal where
  type : String
  value : String
deriving Repr, DecidableEq

structure Condition where
  operation : String
  conditionKey : String
  conditionValues : List String
deriving Repr, DecidableEq

structure Statement where
  sid : Option String := none
  effect : Option Effect := none
  isActionStatement : Bool := false
  actions : List String := []
  isNotActionStatement : Bool := false
  notActions : List String := []
  isResourceStatement : Bool := false
  resources : List String := []
  isNotResourceStatement : Bool := false
  notResources : List String := []
  isPrincipalStatement : Bool := false
  principals : List Principal := []
  hasSingleWildcardPrincipal : Bool := false
  isNotPrincipalStatement : Bool := false
  notPrincipals : List Principal := []
  hasSingleWildcardNotPrincipal : Bool := false
  conditions : List Condition := []
deriving Repr, DecidableEq

/-- `isDeny()`: the statement's effect is explicitly Deny. -/
def Statement.isDeny (s : Statement) : Bool := s.effect == some Effect.deny

/-- `isAllow()`: the effect defaults to Allow when absent. -/
def Statement.isAllow (s : Statement) : Bool := !(s.effect == some Effect.deny)

/-- Raw JSON values, the plain-data projection `toJSON()` used by the
YAML renderer.  A number is carried as its JavaScript decimal rendering
(float formatting itself is not modelled; policy documents contain
strings). -/
inductive JsonValue where
  | null
  | str (s : String)
  | num (render : String)
  | bool (b : Bool)
  | arr (elems : List JsonValue)
  | obj (fields : List (String × JsonValue))
deriving Repr

structure Policy where
  version : Option String := none
  statements : List Statement := []
  toJSON : JsonValue := JsonValue.obj []
deriving Repr

/-! ## Association-list primitives for JavaScript objects

JavaScript plain objects with non-numeric string keys preserve
insertion order; they are embedded as association lists.  Property
assignment overwrites in place when the key exists and appends
otherwise. -/

def lookupList {β : Type} (l : List (String × β)) (k : String) : Option β :=
  (l.find? (fun e => e.1 == k)).map (fun e => e.2)

def setKey {β : Type} (l : List (String × β)) (k : String) (v : β) : List (String × β) :=
  if (l.find? (fun e => e.1 == k)).isSome then
    l.map (fun e => if e.1 == k then (e.1, v) else e)
  else l ++ [(k, v)]

/-! ## Condition accumulation shared by the two code-snippet renderers

Both CDK converters build `{ operator: { key: string | string[] } }`
with the same statements (`cdkPython.ts` and `cdkTypescript.ts`
duplicate this loop verbatim up to variable names).  The check
`if (!conditionMap[operator][key])` uses JavaScript truthiness: the
empty string is falsy, so a stored empty-string scalar is treated as
absent and overwritten. -/

abbrev StrOrList := Sum String (List String)

/-- JavaScript falsiness of a stored condition value: only the empty
string scalar is falsy (arrays are always truthy). -/
def StrOrList.falsy : StrOrList → Bool
  | .inl s => s == ""
  | .inr _ => false

/-- `vals.length === 1 ? vals[0] : [...vals]` -/
def initCondVal (vals : List String) : StrOrList :=
  match vals with
  | [v] => .inl v
  | vs => .inr vs

def conditionStep (m : List (String × List (String × StrOrList))) (c : Condition) :
    List (String × List (String × StrOrList)) :=
  let m := if (lookupList m c.operation).isSome then m else m ++ [(c.operation, [])]
  let inner := (lookupList m c.operation).getD []
  let inner2 :=
    match lookupList inner c.conditionKey with
    | none => inner ++ [(c.conditionKey, initCondVal c.conditionValues)]
    | some v =>
        if v.falsy then setKey inner c.conditionKey (initCondVal c.conditionValues)
        else match v with
          | .inl s => setKey inner c.conditionKey (.inr (s :: c.conditionValues))
          | .inr vs => setKey inner c.conditionKey (.inr (vs ++ c.conditionValues))
  setKey m c.operation inner2

/-- The accumulation loop over a statement's condition list. -/
def buildConditionMap (conds : List Condition) :
    List (String × List (String × StrOrList)) :=
  conds.foldl conditionStep []

/-! ## The Terraform converter (`src/converters/terraform.ts`)

State-passing embedding of `TerraformConverter`.  The JavaScript
truthiness guards (`statement.sid()`, `policy.version()`) are explicit:
an absent or empty string is falsy. -/

/-- One step of the `principals.reduce(...)` accumulator: `acc[type]`
is created as `[]` when absent and the principal is pushed onto it. -/
def pbtStep (acc : List (String × List Principal)) (p : Principal) :
    List (String × List Principal) :=
  if (lookupList acc p.type).isSome then
    acc.map (fun e => if e.1 == p.type then (e.1, e.2 ++ [p]) else e)
  else acc ++ [(p.type, [p])]

/-- `principals.reduce(...)`: group principals by type tag into a plain
object, preserving first insertion order of the keys (the type tags all
come from the fixed non-numeric principal-type set, for which
JavaScript objects are insertion ordered). -/
def principalsByType (principals : List Principal) : List (String × List Principal) :=
  principals.foldl pbtStep []

namespace TerraformConverter

def convertActions (actions : List String) (statementBuffer : StringBuffer) : StringBuffer :=
  StringBuffer.withIndent
    (fun actionsBuffer =>
      actions.enum.foldl
        (fun b ia =>
          b.pushLine ("\"" ++ ia.2 ++ "\""
            ++ (if 1 < actions.length ∧ ia.1 < actions.length - 1 then "," else "")))
        actionsBuffer)
    statementBuffer

def convertResources (resources : List String) (statementBuffer : StringBuffer) : StringBuffer :=
  StringBuffer.withIndent
    (fun resourcesBuffer =>
      resources.enum.foldl
        (fun b ir =>
          b.pushLine ("\"" ++ ir.2 ++ "\""
            ++ (if 1 < resources.length ∧ ir.1 < resources.length - 1 then "," else "")))
        resourcesBuffer)
    statementBuffer

def convertPrincipals (principals : List Principal) (principalType : String)
    (hasSingleWildcard : Bool) (statementBuffer : StringBuffer) : StringBuffer :=
  if hasSingleWildcard then
    let sb := statementBuffer.pushLine (principalType ++ " \x7b")
    let sb := StringBuffer.withIndent
      (fun principalBuffer =>
        (principalBuffer.pushLine "type        = \"*\"").pushLine "identifiers = \"*\"") sb
    let sb := sb.pushLine "\x7d"
    sb.pushLine ""
  else
    (principalsByType principals).foldl
      (fun sb grp =>
        let sb := sb.pushLine (principalType ++ " \x7b")
        let sb := StringBuffer.withIndent
          (fun principalBuffer =>
            let pb := principalBuffer.pushLine ("type        = \"" ++ grp.1 ++ "\"")
            let pb := pb.pushLine "identifiers = ["
            let pb := StringBuffer.withIndent
              (fun identifiersBuffer =>
                grp.2.enum.foldl
                  (fun b ip =>
                    b.pushLine ("\"" ++ ip.2.value ++ "\""
                      ++ (if 1 < grp.2.length ∧ ip.1 < grp.2.length - 1 then "," else "")))
                  identifiersBuffer)
              pb
            pb.pushLine "]")
          sb
        let sb := sb.pushLine "\x7d"
        sb.pushLine "")
      statementBuffer

def convertConditions (conditions : List Condition) (statementBuffer : StringBuffer) :
    StringBuffer :=
  conditions.foldl
    (fun sb condition =>
      let sb := sb.pushLine "condition \x7b"
      let sb := StringBuffer.withIndent
        (fun conditionBuffer =>
          let cb := conditionBuffer.pushLine ("test     = \"" ++ condition.operation ++ "\"")
          let cb := cb.pushLine ("variable = \"" ++ condition.conditionKey ++ "\"")
          let cb := cb.pushLine "values   = ["
          let cb := StringBuffer.withIndent
            (fun valuesBuffer =>
              condition.conditionValues.enum.foldl
                (fun b iv =>
                  b.pushLine ("\"" ++ iv.2 ++ "\""
                    ++ (if 1 < condition.conditionValues.length
                          ∧ iv.1 < condition.conditionValues.length - 1 then "," else "")))
                valuesBuffer)
            cb
          cb.pushLine "]")
        sb
      let sb := sb.pushLine "\x7d"
      sb.pushLine "")
    statementBuffer

/-- The statement-rendering closure passed to `withIndent` for each
statement inside `convert`. -/
def stmtBody (statement : Statement) (statementBuffer : StringBuffer) : StringBuffer :=
  let sb :=
    match statement.sid with
    | some s =>
        if s ≠ "" then (statementBuffer.pushLine ("sid = \"" ++ s ++ "\"")).pushLine ""
        else statementBuffer
    | none => statementBuffer
  let sb := if statement.isDeny then sb.pushLine "effect = \"Deny\"" else sb
  let sb := if statement.isActionStatement then
      (convertActions statement.actions (sb.pushLine "actions = [")).pushLine "]"
    else sb
  let sb := if statement.isNotActionStatement then
      (convertActions statement.notActions (sb.pushLine "not_actions = [")).pushLine "]"
    else sb
  let sb := if statement.isResourceStatement then
      (convertResources statement.resources (sb.pushLine "resources = [")).pushLine "]"
    else sb
  let sb := if statement.isNotResourceStatement then
      (convertResources statement.notResources (sb.pushLine "not_resources = [")).pushLine "]"
    else sb
  let sb := if statement.isPrincipalStatement then
      convertPrincipals statement.principals "principals"
        statement.hasSingleWildcardPrincipal sb
    else sb
  let sb := if statement.isNotPrincipalStatement then
      convertPrincipals statement.notPrincipals "not_principals"
        statement.hasSingleWildcardNotPrincipal sb
    else sb
  convertConditions statement.conditions sb

def convert (policy : Policy) (stringBuffer : StringBuffer) : StringBuffer :=
  let sb := stringBuffer.pushLine "data \"aws_iam_policy_document\" \"policy\" \x7b"
  let sb := StringBuffer.withIndent
    (fun policyBuffer =>
      let pb :=
        match policy.version with
        | some v =>
            if v ≠ "" ∧ v ≠ "2012-10-17" then
              policyBuffer.pushLine ("version = \"" ++ v ++ "\"")
            else policyBuffer
        | none => policyBuffer
      policy.statements.foldl
        (fun pb statement =>
          let pb := pb.pushLine "statement \x7b"
          let pb := StringBuffer.withIndent (stmtBody statement) pb
          pb.pushLine "\x7d")
        pb)
    sb
  let sb := sb.indent
  let sb := sb.unindent
  sb.pushLine "\x7d"

end TerraformConverter

/-! ## First-seen type order

`firstSeenTypes` lists the distinct principal type tags in the order
they first occur; it characterises the key order of the grouping
object built by `principalsByType`. -/

def firstSeenTypes (ps : List Principal) : List String :=
  ps.foldl (fun acc p => if p.type ∈ acc then acc else acc ++ [p.type]) []

theorem firstSeen_foldl_mem (ps : List Principal) (acc : List String) (a : String) :
    a ∈ ps.foldl (fun acc p => if p.type ∈ acc then acc else acc ++ [p.type]) acc
      ↔ a ∈ acc ∨ a ∈ ps.map Principal.type := by
  induction ps generalizing acc with
  | nil => simp
  | cons p rest ih =>
      simp only [List.foldl_cons, List.map_cons, List.mem_cons]
      rw [ih]
      by_cases hp : p.type ∈ acc
      · simp only [hp, if_true]
        constructor
        · rintro (h | h)
          · exact Or.inl h
          · exact Or.inr (Or.inr h)
        · rintro (h | h | h)
          · exact Or.inl h
          · exact Or.inl (h ▸ hp)
          · exact Or.inr h
      · simp only [hp, if_false, List.mem_append, List.mem_singleton]
        tauto

theorem mem_firstSeenTypes (ps : List Principal) (a : String) :
    a ∈ firstSeenTypes ps ↔ a ∈ ps.map Principal.type := by
  rw [firstSeenTypes, firstSeen_foldl_mem]
  simp

theorem firstSeen_foldl_nodup (ps : List Principal) (acc : List String) (h : acc.Nodup) :
    (ps.foldl (fun acc p => if p.type ∈ acc then acc else acc ++ [p.type]) acc).Nodup := by
  induction ps generalizing acc with
  | nil => exact h
  | cons p rest ih =>
      simp only [List.foldl_cons]
      by_cases hp : p.type ∈ acc
      · simpa [hp] using ih acc h
      · refine ih _ ?_
        simp [List.nodup_append, h, hp]

theorem firstSeenTypes_nodup (ps : List Principal) : (firstSeenTypes ps).Nodup :=
  firstSeen_foldl_nodup ps [] List.nodup_nil

theorem lookupList_cons {β : Type} (t : String) (v : β) (l : List (String × β)) (k : String) :
    lookupList ((t, v) :: l) k = if t = k then some v else lookupList l k := by
  by_cases ht : t = k
  · simp [lookupList, List.find?_cons, ht]
  · have hbeq : (t == k) = false := by simp [ht]
    simp [lookupList, List.find?_cons, hbeq, ht]

theorem lookup_map_keys_isSome {β : Type} (ts : List String) (F : String → β) (k : String) :
    (lookupList (ts.map (fun t => (t, F t))) k).isSome = true ↔ k ∈ ts := by
  induction ts with
  | nil => simp [lookupList]
  | cons t rest ih =>
      rw [List.map_cons, lookupList_cons]
      by_cases ht : t = k
      · simp [ht]
      · simp only [ht, if_false, List.mem_cons, ih]
        constructor
        · exact Or.inr
        · rintro (h | h)
          · exact absurd h.symm ht
          · exact h

theorem filter_type_empty (done : List Principal) (k : String)
    (h : k ∉ done.map Principal.type) :
    done.filter (fun q => q.type == k) = [] := by
  rw [List.filter_eq_nil_iff]
  intro q hq
  simp only [beq_iff_eq]
  intro hqk
  exact h (List.mem_map.mpr ⟨q, hq, hqk⟩)

theorem firstSeenTypes_append_one (done : List Principal) (p : Principal) :
    firstSeenTypes (done ++ [p])
      = if p.type ∈ firstSeenTypes done then firstSeenTypes done
        else firstSeenTypes done ++ [p.type] := by
  simp [firstSeenTypes, List.foldl_append]

theorem pbtStep_eq (done : List Principal) (p : Principal) :
    pbtStep ((firstSeenTypes done).map (fun t => (t, done.filter (fun q => q.type == t)))) p
      = (firstSeenTypes (done ++ [p])).map
          (fun t => (t, (done ++ [p]).filter (fun q => q.type == t))) := by
  rw [firstSeenTypes_append_one]
  by_cases hp : p.type ∈ firstSeenTypes done
  · simp only [hp, if_true, pbtStep,
      (lookup_map_keys_isSome (firstSeenTypes done) _ p.type).mpr hp, List.map_map]
    apply List.map_congr_left
    intro t _
    simp only [Function.comp]
    by_cases ht : t = p.type
    · subst ht
      simp [List.filter_append]
    · have h1 : (t == p.type) = false := by simp [ht]
      have h2 : (p.type == t) = false := by simp [Ne.symm ht]
      simp [h1, h2, List.filter_append]
  · have hnot : ¬(lookupList ((firstSeenTypes done).map
        (fun t => (t, done.filter (fun q => q.type == t)))) p.type).isSome = true := by
      rw [lookup_map_keys_isSome]
      exact hp
    rw [if_neg hp, pbtStep, if_neg hnot, List.map_append, List.map_cons, List.map_nil]
    congr 1
    · apply List.map_congr_left
      intro t ht
      have htp : t ≠ p.type := fun he => hp (he ▸ ht)
      have h2 : (p.type == t) = false := by simp [Ne.symm htp]
      simp [List.filter_append, h2]
    · have hfe : done.filter (fun q => q.type == p.type) = [] :=
        filter_type_empty done p.type (by rwa [← mem_firstSeenTypes])
      simp [List.filter_append, hfe]

theorem principalsByType_aux (todo done : List Principal) :
    todo.foldl pbtStep
        ((firstSeenTypes done).map (fun t => (t, done.filter (fun q => q.type == t))))
      = (firstSeenTypes (done ++ todo)).map
          (fun t => (t, (done ++ todo).filter (fun q => q.type == t))) := by
  induction todo generalizing done with
  | nil => simp
  | cons p rest ih =>
      simp only [List.foldl_cons]
      rw [pbtStep_eq done p, ih (done ++ [p])]
      simp

/-- The grouping object lists one entry per distinct type tag in
first-seen order, each carrying that type's principals in their
original relative order. -/
theorem principalsByType_eq (ps : List Principal) :
    principalsByType ps
      = (firstSeenTypes ps).map (fun t => (t, ps.filter (fun q => q.type == t))) := by
  have h := principalsByType_aux ps []
  simpa [principalsByType, firstSeenTypes] using h

/-! ## Pure line denotations of the Terraform converter

Each writer of `TerraformConverter` is proven to append a pure
function of its inputs and the current indent level. -/

def tfArray (u : String) (l : Nat) (vals : List String) : List String :=
  vals.enum.map (fun iv =>
    strRepeat u l ++ ("\"" ++ iv.2 ++ "\""
      ++ (if 1 < vals.length ∧ iv.1 < vals.length - 1 then "," else "")))

def tfPrincipalBlock (u : String) (l : Nat) (tag : String) (t : String)
    (g : List Principal) : List String :=
  [strRepeat u l ++ (tag ++ " \x7b"),
   strRepeat u (l + 1) ++ ("type        = \"" ++ t ++ "\""),
   strRepeat u (l + 1) ++ "identifiers = ["]
  ++ g.enum.map (fun ip =>
      strRepeat u (l + 2) ++ ("\"" ++ ip.2.value ++ "\""
        ++ (if 1 < g.length ∧ ip.1 < g.length - 1 then "," else "")))
  ++ [strRepeat u (l + 1) ++ "]", strRepeat u l ++ "\x7d", strRepeat u l]

def tfPrincipals (u : String) (l : Nat) (tag : String) (wild : Bool)
    (ps : List Principal) : List String :=
  if wild then
    [strRepeat u l ++ (tag ++ " \x7b"),
     strRepeat u (l + 1) ++ "type        = \"*\"",
     strRepeat u (l + 1) ++ "identifiers = \"*\"",
     strRepeat u l ++ "\x7d",
     strRepeat u l]
  else
    ((firstSeenTypes ps).map
      (fun t => tfPrincipalBlock u l tag t (ps.filter (fun q => q.type == t)))).flatten

def tfConditionBlock (u : String) (l : Nat) (c : Condition) : List String :=
  [strRepeat u l ++ "condition \x7b",
   strRepeat u (l + 1) ++ ("test     = \"" ++ c.operation ++ "\""),
   strRepeat u (l + 1) ++ ("variable = \"" ++ c.conditionKey ++ "\""),
   strRepeat u (l + 1) ++ "values   = ["]
  ++ c.conditionValues.enum.map (fun iv =>
      strRepeat u (l + 2) ++ ("\"" ++ iv.2 ++ "\""
        ++ (if 1 < c.conditionValues.length
              ∧ iv.1 < c.conditionValues.length - 1 then "," else "")))
  ++ [strRepeat u (l + 1) ++ "]", strRepeat u l ++ "\x7d", strRepeat u l]

def tfConditions (u : String) (l : Nat) (conds : List Condition) : List String :=
  (conds.map (fun c => tfConditionBlock u l c)).flatten

def tfStmtLines (u : String) (l : Nat) (s : Statement) : List String :=
  (match s.sid with
   | some sd =>
       if sd ≠ "" then [strRepeat u l ++ ("sid = \"" ++ sd ++ "\""), strRepeat u l] else []
   | none => [])
  ++ (if s.isDeny then [strRepeat u l ++ "effect = \"Deny\""] else [])
  ++ (if s.isActionStatement then
        [strRepeat u l ++ "actions = ["] ++ tfArray u (l + 1) s.actions
          ++ [strRepeat u l ++ "]"]
      else [])
  ++ (if s.isNotActionStatement then
        [strRepeat u l ++ "not_actions = ["] ++ tfArray u (l + 1) s.notActions
          ++ [strRepeat u l ++ "]"]
      else [])
  ++ (if s.isResourceStatement then
        [strRepeat u l ++ "resources = ["] ++ tfArray u (l + 1) s.resources
          ++ [strRepeat u l ++ "]"]
      else [])
  ++ (if s.isNotResourceStatement then
        [strRepeat u l ++ "not_resources = ["] ++ tfArray u (l + 1) s.notResources
          ++ [strRepeat u l ++ "]"]
      else [])
  ++ (if s.isPrincipalStatement then
        tfPrincipals u l "principals" s.hasSingleWildcardPrincipal s.principals
      else [])
  ++ (if s.isNotPrincipalStatement then
        tfPrincipals u l "not_principals" s.hasSingleWildcardNotPrincipal s.notPrincipals
      else [])
  ++ tfConditions u l s.conditions

def tfLines (u : String) (l : Nat) (p : Policy) : List String :=
  [strRepeat u l ++ "data \"aws_iam_policy_document\" \"policy\" \x7b"]
  ++ (match p.version with
      | some v =>
          if v ≠ "" ∧ v ≠ "2012-10-17" then
            [strRepeat u (l + 1) ++ ("version = \"" ++ v ++ "\"")]
          else []
      | none => [])
  ++ (p.statements.map (fun s =>
        [strRepeat u (l + 1) ++ "statement \x7b"] ++ tfStmtLines u (l + 2) s
          ++ [strRepeat u (l + 1) ++ "\x7d"])).flatten
  ++ [strRepeat u l ++ "\x7d"]

theorem convertActions_runs (as : List String) :
    RunsTo (TerraformConverter.convertActions as) (fun u l => tfArray u (l + 1) as) := by
  refine runsTo_congr (runsTo_withIndent (runsTo_foldl _
    (fun ia u l => [strRepeat u l ++ ("\"" ++ ia.2 ++ "\""
      ++ (if 1 < as.length ∧ ia.1 < as.length - 1 then "," else ""))])
    (fun ia => runsTo_pushLine _) as.enum)) ?_
  intro u l
  simp [tfArray]

theorem convertResources_runs (rs : List String) :
    RunsTo (TerraformConverter.convertResources rs) (fun u l => tfArray u (l + 1) rs) := by
  refine runsTo_congr (runsTo_withIndent (runsTo_foldl _
    (fun ir u l => [strRepeat u l ++ ("\"" ++ ir.2 ++ "\""
      ++ (if 1 < rs.length ∧ ir.1 < rs.length - 1 then "," else ""))])
    (fun ir => runsTo_pushLine _) rs.enum)) ?_
  intro u l
  simp [tfArray]

theorem convertPrincipals_runs (ps : List Principal) (tag : String) (wild : Bool) :
    RunsTo (TerraformConverter.convertPrincipals ps tag wild)
      (fun u l => tfPrincipals u l tag wild ps) := by
  cases wild with
  | true =>
      show RunsTo (fun statementBuffer =>
        ((StringBuffer.withIndent
          (fun principalBuffer =>
            (principalBuffer.pushLine "type        = \"*\"").pushLine "identifiers = \"*\"")
          (statementBuffer.pushLine (tag ++ " \x7b"))).pushLine "\x7d").pushLine "")
        (fun u l => tfPrincipals u l tag true ps)
      refine runsTo_congr (runsTo_seq (runsTo_seq (runsTo_seq (runsTo_pushLine (tag ++ " \x7b"))
        (runsTo_withIndent (runsTo_seq (runsTo_pushLine "type        = \"*\"")
          (runsTo_pushLine "identifiers = \"*\"")))) (runsTo_pushLine "\x7d"))
        (runsTo_pushLine "")) ?_
      intro u l
      simp [tfPrincipals]
  | false =>
      have hgrp : ∀ grp : String × List Principal,
          RunsTo (fun sb =>
            ((StringBuffer.withIndent
              (fun principalBuffer =>
                ((StringBuffer.withIndent
                  (fun identifiersBuffer =>
                    grp.2.enum.foldl
                      (fun b ip =>
                        b.pushLine ("\"" ++ ip.2.value ++ "\""
                          ++ (if 1 < grp.2.length ∧ ip.1 < grp.2.length - 1 then "," else "")))
                      identifiersBuffer)
                  ((principalBuffer.pushLine
                      ("type        = \"" ++ grp.1 ++ "\"")).pushLine
                    "identifiers = [")).pushLine "]"))
              (sb.pushLine (tag ++ " \x7b"))).pushLine "\x7d").pushLine "")
            (fun u l => tfPrincipalBlock u l tag grp.1 grp.2) := by
        intro grp
        refine runsTo_congr (runsTo_seq (runsTo_seq (runsTo_seq
          (runsTo_pushLine (tag ++ " \x7b"))
          (runsTo_withIndent (runsTo_seq (runsTo_seq (runsTo_seq
            (runsTo_pushLine ("type        = \"" ++ grp.1 ++ "\""))
            (runsTo_pushLine "identifiers = ["))
            (runsTo_withIndent (runsTo_foldl _
              (fun ip u l => [strRepeat u l ++ ("\"" ++ ip.2.value ++ "\""
                ++ (if 1 < grp.2.length ∧ ip.1 < grp.2.length - 1 then "," else ""))])
              (fun ip => runsTo_pushLine _) grp.2.enum)))
            (runsTo_pushLine "]"))))
          (runsTo_pushLine "\x7d"))
          (runsTo_pushLine "")) ?_
        intro u l
        simp [tfPrincipalBlock, List.append_assoc]
      refine runsTo_congr (runsTo_foldl _ (fun grp u l => tfPrincipalBlock u l tag grp.1 grp.2)
        hgrp (principalsByType ps)) ?_
      intro u l
      rw [principalsByType_eq, List.map_map]
      simp [tfPrincipals, Function.comp_def]

theorem convertConditions_runs (conds : List Condition) :
    RunsTo (TerraformConverter.convertConditions conds)
      (fun u l => tfConditions u l conds) := by
  have hblk : ∀ c : Condition,
      RunsTo (fun sb =>
        ((StringBuffer.withIndent
          (fun conditionBuffer =>
            ((StringBuffer.withIndent
              (fun valuesBuffer =>
                c.conditionValues.enum.foldl
                  (fun b iv =>
                    b.pushLine ("\"" ++ iv.2 ++ "\""
                      ++ (if 1 < c.conditionValues.length
                            ∧ iv.1 < c.conditionValues.length - 1 then "," else "")))
                  valuesBuffer)
              (((conditionBuffer.pushLine
                  ("test     = \"" ++ c.operation ++ "\"")).pushLine
                  ("variable = \"" ++ c.conditionKey ++ "\"")).pushLine
                "values   = [")).pushLine "]"))
          (sb.pushLine "condition \x7b")).pushLine "\x7d").pushLine "")
        (fun u l => tfConditionBlock u l c) := by
    intro c
    refine runsTo_congr (runsTo_seq (runsTo_seq (runsTo_seq
      (runsTo_pushLine "condition \x7b")
      (runsTo_withIndent (runsTo_seq (runsTo_seq (runsTo_seq (runsTo_seq
        (runsTo_pushLine ("test     = \"" ++ c.operation ++ "\""))
        (runsTo_pushLine ("variable = \"" ++ c.conditionKey ++ "\"")))
        (runsTo_pushLine "values   = ["))
        (runsTo_withIndent (runsTo_foldl _
          (fun iv u l => [strRepeat u l ++ ("\"" ++ iv.2 ++ "\""
            ++ (if 1 < c.conditionValues.length
                  ∧ iv.1 < c.conditionValues.length - 1 then "," else ""))])
          (fun iv => runsTo_pushLine _) c.conditionValues.enum)))
        (runsTo_pushLine "]"))))
      (runsTo_pushLine "\x7d"))
      (runsTo_pushLine "")) ?_
    intro u l
    simp [tfConditionBlock, List.append_assoc]
  refine runsTo_congr (runsTo_foldl _ (fun c u l => tfConditionBlock u l c) hblk conds) ?_
  intro u l
  simp [tfConditions]

theorem runsTo_indent_unindent : RunsTo (fun sb => sb.indent.unindent) (fun _ _ => []) := by
  intro sb h
  have hmax : max (sb.indentLevel + 1 - 1) 0 = sb.indentLevel := by omega
  simp [StringBuffer.indent, StringBuffer.unindent, hmax]
  all_goals omega

theorem stmtBody_runs (s : Statement) :
    RunsTo (TerraformConverter.stmtBody s) (fun u l => tfStmtLines u l s) := by
  have hsid : RunsTo (fun sb : StringBuffer =>
      match s.sid with
      | some sd =>
          if sd ≠ "" then (sb.pushLine ("sid = \"" ++ sd ++ "\"")).pushLine "" else sb
      | none => sb)
    (fun u l =>
      match s.sid with
      | some sd =>
          if sd ≠ "" then
            [strRepeat u l ++ ("sid = \"" ++ sd ++ "\""), strRepeat u l ++ ""]
          else []
      | none => []) := by
    intro sb hsb
    cases s.sid with
    | none => simp
    | some sd =>
        by_cases hd : sd = ""
        · simp [hd]
        · simp [hd, StringBuffer.pushLine, List.append_assoc]
  have hcomp := runsTo_seq (runsTo_seq (runsTo_seq (runsTo_seq (runsTo_seq (runsTo_seq
    (runsTo_seq (runsTo_seq hsid
    (runsTo_cond (s.isDeny = true) (runsTo_pushLine "effect = \"Deny\"") runsTo_id))
    (runsTo_cond (s.isActionStatement = true)
      (runsTo_seq (runsTo_seq (runsTo_pushLine "actions = [")
        (convertActions_runs s.actions)) (runsTo_pushLine "]")) runsTo_id))
    (runsTo_cond (s.isNotActionStatement = true)
      (runsTo_seq (runsTo_seq (runsTo_pushLine "not_actions = [")
        (convertActions_runs s.notActions)) (runsTo_pushLine "]")) runsTo_id))
    (runsTo_cond (s.isResourceStatement = true)
      (runsTo_seq (runsTo_seq (runsTo_pushLine "resources = [")
        (convertResources_runs s.resources)) (runsTo_pushLine "]")) runsTo_id))
    (runsTo_cond (s.isNotResourceStatement = true)
      (runsTo_seq (runsTo_seq (runsTo_pushLine "not_resources = [")
        (convertResources_runs s.notResources)) (runsTo_pushLine "]")) runsTo_id))
    (runsTo_cond (s.isPrincipalStatement = true)
      (convertPrincipals_runs s.principals "principals" s.hasSingleWildcardPrincipal)
      runsTo_id))
    (runsTo_cond (s.isNotPrincipalStatement = true)
      (convertPrincipals_runs s.notPrincipals "not_principals" s.hasSingleWildcardNotPrincipal)
      runsTo_id))
    (convertConditions_runs s.conditions)
  refine runsTo_congr hcomp ?_
  intro u l
  cases hs : s.sid <;> simp [tfStmtLines, hs, List.append_assoc]

theorem tfConvert_runs (p : Policy) :
    RunsTo (TerraformConverter.convert p) (fun u l => tfLines u l p) := by
  have hver : RunsTo (fun pb : StringBuffer =>
      match p.version with
      | some v =>
          if v ≠ "" ∧ v ≠ "2012-10-17" then pb.pushLine ("version = \"" ++ v ++ "\"") else pb
      | none => pb)
    (fun u l =>
      match p.version with
      | some v =>
          if v ≠ "" ∧ v ≠ "2012-10-17" then
            [strRepeat u l ++ ("version = \"" ++ v ++ "\"")]
          else []
      | none => []) := by
    intro pb hpb
    cases p.version with
    | none => simp
    | some v =>
        by_cases hv : v ≠ "" ∧ v ≠ "2012-10-17"
        · simp [hv, StringBuffer.pushLine]
        · simp [hv]
  have hstmt : ∀ st : Statement, RunsTo (fun pb : StringBuffer =>
      (StringBuffer.withIndent (TerraformConverter.stmtBody st)
        (pb.pushLine "statement \x7b")).pushLine "\x7d")
    (fun u l => [strRepeat u l ++ "statement \x7b"] ++ tfStmtLines u (l + 1) st
        ++ [strRepeat u l ++ "\x7d"]) := by
    intro st
    have hcomp := runsTo_seq (runsTo_seq (runsTo_pushLine "statement \x7b")
      (runsTo_withIndent (stmtBody_runs st))) (runsTo_pushLine "\x7d")
    refine runsTo_congr hcomp ?_
    intro u l
    simp
  have hcomp := runsTo_seq (runsTo_seq (runsTo_seq
    (runsTo_pushLine "data \"aws_iam_policy_document\" \"policy\" \x7b")
    (runsTo_withIndent (runsTo_seq hver
      (runsTo_foldl _ (fun st u l => [strRepeat u l ++ "statement \x7b"]
        ++ tfStmtLines u (l + 1) st ++ [strRepeat u l ++ "\x7d"]) hstmt p.statements))))
    runsTo_indent_unindent)
    (runsTo_pushLine "\x7d")
  refine runsTo_congr hcomp ?_
  intro u l
  cases hv : p.version <;> simp [tfLines, hv, List.append_assoc]

/-- The Terraform converter on a fresh default buffer produces exactly
the pure line denotation `tfLines` at indent unit two spaces, depth 0. -/
theorem terraform_buffer (p : Policy) :
    TerraformConverter.convert p (StringBuffer.new none none)
      = { buffer := tfLines "  " 0 p, indentLevel := 0, indentBy := "  ",
          lineSeparator := "\n" } := by
  have h := tfConvert_runs p (StringBuffer.new none none) (by simp [StringBuffer.new])
  rw [h]
  simp [StringBuffer.new]

/-! ## Character-level line discrimination

Lines in the rendered output are distinguished by the character at a
fixed index: content of policy values only ever appears behind a fixed
literal prefix. -/

theorem ne_of_data_getElem (a b : String) (k : Nat) (h : a.data[k]? ≠ b.data[k]?) :
    a ≠ b := by
  intro he
  exact h (he ▸ rfl)

theorem not_dataPrefix_of_getElem (p l : String) (k : Nat) (hk : k < p.data.length)
    (h : p.data[k]? ≠ l.data[k]?) : ¬ p.data <+: l.data := by
  rintro ⟨t, ht⟩
  apply h
  rw [← ht, List.getElem?_append_left hk]

theorem getElem_concrete_append (c r : String) (k : Nat) (hk : k < c.data.length) :
    ((c ++ r).data)[k]? = c.data[k]? := by
  rw [String.data_append, List.getElem?_append_left hk]

theorem data_append3 (a b c : String) :
    (a ++ b ++ c).data = a.data ++ (b.data ++ c.data) := by
  simp [String.data_append]

theorem strRepeat_sp_ge_two (k : Nat) (hk : 2 ≤ k) :
    ∃ m, strRepeat "  " k = "    " ++ strRepeat "  " m := by
  obtain ⟨m, rfl⟩ : ∃ m, k = m + 2 := ⟨k - 2, by omega⟩
  refine ⟨m, ?_⟩
  rw [strRepeat_succ, strRepeat_succ, ← String.append_assoc]
  rfl

theorem deep_line_getElem2 (k : Nat) (hk : 2 ≤ k) (r : String) :
    ((strRepeat "  " k ++ r).data)[2]? = some ' ' := by
  obtain ⟨m, hm⟩ := strRepeat_sp_ge_two k hk
  rw [hm, String.append_assoc]
  rw [getElem_concrete_append "    " _ 2 (by decide)]
  rfl


theorem forall_mem_flattened {α : Type} {P : α → Prop} {L : List (List α)}
    (h : ∀ l ∈ L, ∀ x ∈ l, P x) : ∀ x ∈ L.flatten, P x := by
  intro x hx
  rw [List.mem_flatten] at hx
  obtain ⟨l, hl, hxl⟩ := hx
  exact h l hl x hxl

theorem forall_mem_mapped {α β : Type} {P : β → Prop} {f : α → β} {l : List α}
    (h : ∀ a ∈ l, P (f a)) : ∀ x ∈ l.map f, P x := by
  intro x hx
  rw [List.mem_map] at hx
  obtain ⟨a, ha, rfl⟩ := hx
  exact h a ha

/-! ### Line shapes of the Terraform statement body

Every line emitted inside a `statement` block carries at least the
statement indentation. -/

def ShapeGe (u : String) (l : Nat) (line : String) : Prop :=
  ∃ k r, l ≤ k ∧ line = strRepeat u k ++ r

theorem shapeGe_self (u : String) (l : Nat) (r : String) : ShapeGe u l (strRepeat u l ++ r) :=
  ⟨l, r, le_refl _, rfl⟩

theorem shapeGe_succ (u : String) (l : Nat) (k : Nat) (r : String) (hk : l ≤ k) :
    ShapeGe u l (strRepeat u k ++ r) :=
  ⟨k, r, hk, rfl⟩

theorem shapeGe_bare (u : String) (l : Nat) : ShapeGe u l (strRepeat u l) :=
  ⟨l, "", le_refl _, (str_append_empty _).symm⟩

theorem shapeGe_mono (u : String) (l l' : Nat) (hl : l ≤ l') (line : String)
    (h : ShapeGe u l' line) : ShapeGe u l line := by
  obtain ⟨k, r, hk, rfl⟩ := h
  exact ⟨k, r, by omega, rfl⟩

theorem tfArray_shape (u : String) (l : Nat) (vs : List String) :
    ∀ line ∈ tfArray u l vs, ShapeGe u l line := by
  unfold tfArray
  exact forall_mem_mapped (fun iv _ => shapeGe_self u l _)

theorem tfPrincipalBlock_shape (u : String) (l : Nat) (tag t : String)
    (g : List Principal) : ∀ line ∈ tfPrincipalBlock u l tag t g, ShapeGe u l line := by
  unfold tfPrincipalBlock
  refine List.forall_mem_append.mpr ⟨List.forall_mem_append.mpr ⟨?_, ?_⟩, ?_⟩
  · refine List.forall_mem_cons.mpr ⟨shapeGe_self u l _, ?_⟩
    refine List.forall_mem_cons.mpr ⟨shapeGe_succ u l (l + 1) _ (by omega), ?_⟩
    exact List.forall_mem_singleton.mpr (shapeGe_succ u l (l + 1) _ (by omega))
  · exact forall_mem_mapped (fun ip _ => shapeGe_succ u l (l + 2) _ (by omega))
  · refine List.forall_mem_cons.mpr ⟨shapeGe_succ u l (l + 1) _ (by omega), ?_⟩
    refine List.forall_mem_cons.mpr ⟨shapeGe_self u l _, ?_⟩
    exact List.forall_mem_singleton.mpr (shapeGe_bare u l)

theorem tfPrincipals_shape (u : String) (l : Nat) (tag : String) (w : Bool)
    (ps : List Principal) : ∀ line ∈ tfPrincipals u l tag w ps, ShapeGe u l line := by
  cases w with
  | true =>
      unfold tfPrincipals
      simp only [if_true]
      refine List.forall_mem_cons.mpr ⟨shapeGe_self u l _, ?_⟩
      refine List.forall_mem_cons.mpr ⟨shapeGe_succ u l (l + 1) _ (by omega), ?_⟩
      refine List.forall_mem_cons.mpr ⟨shapeGe_succ u l (l + 1) _ (by omega), ?_⟩
      refine List.forall_mem_cons.mpr ⟨shapeGe_self u l _, ?_⟩
      exact List.forall_mem_singleton.mpr (shapeGe_bare u l)
  | false =>
      unfold tfPrincipals
      simp only [Bool.false_eq_true, if_false]
      refine forall_mem_flattened ?_
      refine forall_mem_mapped ?_
      intro t _
      exact tfPrincipalBlock_shape u l tag t _

theorem tfConditionBlock_shape (u : String) (l : Nat) (c : Condition) :
    ∀ line ∈ tfConditionBlock u l c, ShapeGe u l line := by
  unfold tfConditionBlock
  refine List.forall_mem_append.mpr ⟨List.forall_mem_append.mpr ⟨?_, ?_⟩, ?_⟩
  · refine List.forall_mem_cons.mpr ⟨shapeGe_self u l _, ?_⟩
    refine List.forall_mem_cons.mpr ⟨shapeGe_succ u l (l + 1) _ (by omega), ?_⟩
    refine List.forall_mem_cons.mpr ⟨shapeGe_succ u l (l + 1) _ (by omega), ?_⟩
    exact List.forall_mem_singleton.mpr (shapeGe_succ u l (l + 1) _ (by omega))
  · exact forall_mem_mapped (fun iv _ => shapeGe_succ u l (l + 2) _ (by omega))
  · refine List.forall_mem_cons.mpr ⟨shapeGe_succ u l (l + 1) _ (by omega), ?_⟩
    refine List.forall_mem_cons.mpr ⟨shapeGe_self u l _, ?_⟩
    exact List.forall_mem_singleton.mpr (shapeGe_bare u l)

theorem tfConditions_shape (u : String) (l : Nat) (cs : List Condition) :
    ∀ line ∈ tfConditions u l cs, ShapeGe u l line := by
  unfold tfConditions
  exact forall_mem_flattened (forall_mem_mapped (fun c _ => tfConditionBlock_shape u l c))

theorem tfStmtLines_shape (u : String) (l : Nat) (s : Statement) :
    ∀ line ∈ tfStmtLines u l s, ShapeGe u l line := by
  unfold tfStmtLines
  refine List.forall_mem_append.mpr ⟨List.forall_mem_append.mpr ⟨List.forall_mem_append.mpr
    ⟨List.forall_mem_append.mpr ⟨List.forall_mem_append.mpr ⟨List.forall_mem_append.mpr
    ⟨List.forall_mem_append.mpr ⟨List.forall_mem_append.mpr ⟨?_, ?_⟩, ?_⟩, ?_⟩, ?_⟩, ?_⟩,
    ?_⟩, ?_⟩, ?_⟩
  · cases s.sid with
    | none => intro line hline; simp at hline
    | some sd =>
        by_cases hsd : sd = ""
        · intro line hline; simp [hsd] at hline
        · simp only [hsd, ne_eq, not_false_eq_true, if_true]
          refine List.forall_mem_cons.mpr ⟨shapeGe_self u l _, ?_⟩
          exact List.forall_mem_singleton.mpr (shapeGe_bare u l)
  · by_cases hb : s.isDeny
    · simp only [hb, if_true]
      exact List.forall_mem_singleton.mpr (shapeGe_self u l _)
    · intro line hline; simp [hb] at hline
  · by_cases hb : s.isActionStatement
    · simp only [hb, if_true]
      refine List.forall_mem_append.mpr ⟨List.forall_mem_append.mpr ⟨?_, ?_⟩, ?_⟩
      · exact List.forall_mem_singleton.mpr (shapeGe_self u l _)
      · exact fun line hline =>
          shapeGe_mono u l (l + 1) (by omega) line (tfArray_shape u (l + 1) _ line hline)
      · exact List.forall_mem_singleton.mpr (shapeGe_self u l _)
    · intro line hline; simp [hb] at hline
  · by_cases hb : s.isNotActionStatement
    · simp only [hb, if_true]
      refine List.forall_mem_append.mpr ⟨List.forall_mem_append.mpr ⟨?_, ?_⟩, ?_⟩
      · exact List.forall_mem_singleton.mpr (shapeGe_self u l _)
      · exact fun line hline =>
          shapeGe_mono u l (l + 1) (by omega) line (tfArray_shape u (l + 1) _ line hline)
      · exact List.forall_mem_singleton.mpr (shapeGe_self u l _)
    · intro line hline; simp [hb] at hline
  · by_cases hb : s.isResourceStatement
    · simp only [hb, if_true]
      refine List.forall_mem_append.mpr ⟨List.forall_mem_append.mpr ⟨?_, ?_⟩, ?_⟩
      · exact List.forall_mem_singleton.mpr (shapeGe_self u l _)
      · exact fun line hline =>
          shapeGe_mono u l (l + 1) (by omega) line (tfArray_shape u (l + 1) _ line hline)
      · exact List.forall_mem_singleton.mpr (shapeGe_self u l _)
    · intro line hline; simp [hb] at hline
  · by_cases hb : s.isNotResourceStatement
    · simp only [hb, if_true]
      refine List.forall_mem_append.mpr ⟨List.forall_mem_append.mpr ⟨?_, ?_⟩, ?_⟩
      · exact List.forall_mem_singleton.mpr (shapeGe_self u l _)
      · exact fun line hline =>
          shapeGe_mono u l (l + 1) (by omega) line (tfArray_shape u (l + 1) _ line hline)
      · exact List.forall_mem_singleton.mpr (shapeGe_self u l _)
    · intro line hline; simp [hb] at hline
  · by_cases hb : s.isPrincipalStatement
    · simp only [hb, if_true]
      exact tfPrincipals_shape u l _ _ _
    · intro line hline; simp [hb] at hline
  · by_cases hb : s.isNotPrincipalStatement
    · simp only [hb, if_true]
      exact tfPrincipals_shape u l _ _ _
    · intro line hline; simp [hb] at hline
  · exact tfConditions_shape u l _

theorem tf_block_lines_char2 (p : Policy) :
    ∀ line ∈ (p.statements.map (fun s =>
        [strRepeat "  " (0 + 1) ++ "statement \x7b"] ++ tfStmtLines "  " (0 + 2) s
          ++ [strRepeat "  " (0 + 1) ++ "\x7d"])).flatten,
      line.data[2]? = some 's' ∨ line.data[2]? = some ' ' ∨ line.data[2]? = some '}' := by
  refine forall_mem_flattened (forall_mem_mapped ?_)
  intro s _
  refine List.forall_mem_append.mpr ⟨List.forall_mem_append.mpr ⟨?_, ?_⟩, ?_⟩
  · refine List.forall_mem_singleton.mpr ?_
    left
    decide
  · intro line hline
    obtain ⟨k, r, hk, rfl⟩ := tfStmtLines_shape "  " (0 + 2) s line hline
    right
    left
    exact deep_line_getElem2 k (by omega) r
  · refine List.forall_mem_singleton.mpr ?_
    right
    right
    decide

/-- C2 counterexample: a policy whose version is the empty string has a
version value different from the implicit default, yet the Terraform
renderer emits no version line at all (the JavaScript truthiness guard
`policy.version()` rejects the empty string). -/
theorem tf_version_empty_counterexample :
    (TerraformConverter.convert { version := some "", statements := [] }
        (StringBuffer.new none none)).buffer
      = ["data \"aws_iam_policy_document\" \"policy\" \x7b", "\x7d"]
    ∧ ("" : String) ≠ "2012-10-17"
    ∧ "  version = \"\"" ∉ (TerraformConverter.convert { version := some "", statements := [] }
          (StringBuffer.new none none)).buffer := by
  refine ⟨by decide, by decide, by decide⟩

/-- C2 (amended): on the default buffer, the Terraform renderer emits
exactly one version line (the version value in double quotes) when the
document's version is present, non-empty and different from the
implicit default `2012-10-17`; when the version is absent, empty, or
equal to the default, no line of the output starts with `version = `
text (the line is omitted entirely). -/
theorem tf_version_line (p : Policy) (v : String) :
    (p.version = some v → v ≠ "" → v ≠ "2012-10-17" →
      (TerraformConverter.convert p (StringBuffer.new none none)).buffer.count
          ("  version = \"" ++ v ++ "\"") = 1)
    ∧ ((p.version = none ∨ p.version = some "" ∨ p.version = some "2012-10-17") →
        ∀ line ∈ (TerraformConverter.convert p (StringBuffer.new none none)).buffer,
          ¬ (("  version = ").data <+: line.data)) := by
  have hb : (TerraformConverter.convert p (StringBuffer.new none none)).buffer
      = tfLines "  " 0 p := by
    rw [terraform_buffer]
  constructor
  · intro hv h1 h2
    rw [hb]
    simp only [tfLines, hv]
    rw [if_pos ⟨h1, h2⟩]
    have hveq : strRepeat "  " (0 + 1) ++ ("version = \"" ++ v ++ "\"")
        = "  version = \"" ++ v ++ "\"" := by
      have hone : strRepeat "  " (0 + 1) = "  " := by decide
      rw [hone, ← String.append_assoc, ← String.append_assoc]
      rfl
    rw [hveq]
    have htgt0 : ("  version = \"" ++ v ++ "\"").data[0]? = some ' ' := by
      rw [data_append3, List.getElem?_append_left (by decide)]
      decide
    have htgt2 : ("  version = \"" ++ v ++ "\"").data[2]? = some 'v' := by
      rw [data_append3, List.getElem?_append_left (by decide)]
      decide
    rw [List.count_append, List.count_append, List.count_append]
    have hA : List.count ("  version = \"" ++ v ++ "\"")
        [strRepeat "  " 0 ++ "data \"aws_iam_policy_document\" \"policy\" \x7b"] = 0 := by
      rw [List.count_eq_zero]
      intro hmem
      rw [List.mem_singleton] at hmem
      exact ne_of_data_getElem _ _ 0 (by rw [htgt0]; decide) hmem
    have hB : List.count ("  version = \"" ++ v ++ "\"") ["  version = \"" ++ v ++ "\""] = 1 := by
      simp
    have hC : List.count ("  version = \"" ++ v ++ "\"")
        ((p.statements.map (fun s =>
          [strRepeat "  " (0 + 1) ++ "statement \x7b"] ++ tfStmtLines "  " (0 + 2) s
            ++ [strRepeat "  " (0 + 1) ++ "\x7d"])).flatten) = 0 := by
      rw [List.count_eq_zero]
      intro hmem
      rcases tf_block_lines_char2 p _ hmem with hc | hc | hc <;>
        · rw [htgt2] at hc
          exact absurd hc (by decide)
    have hD : List.count ("  version = \"" ++ v ++ "\"") [strRepeat "  " 0 ++ "\x7d"] = 0 := by
      rw [List.count_eq_zero]
      intro hmem
      rw [List.mem_singleton] at hmem
      exact ne_of_data_getElem _ _ 0 (by rw [htgt0]; decide) hmem
    rw [hA, hB, hC, hD]
  · intro hver
    rw [hb]
    have hnil : (match p.version with
        | some v0 =>
            if v0 ≠ "" ∧ v0 ≠ "2012-10-17" then
              [strRepeat "  " (0 + 1) ++ ("version = \"" ++ v0 ++ "\"")]
            else []
        | none => ([] : List String)) = [] := by
      rcases hver with h | h | h <;> rw [h] <;> simp
    intro line hline
    simp only [tfLines, hnil, List.nil_append, List.append_nil, List.mem_append,
      List.mem_singleton] at hline
    rcases hline with (rfl | hmem) | rfl
    · decide
    · refine not_dataPrefix_of_getElem _ _ 2 (by decide) ?_
      rcases tf_block_lines_char2 p _ hmem with hc | hc | hc <;>
        · rw [hc]
          decide
    · decide

/-- C5: for a non-wildcard principal (or not-principal) list whose type
tags come from the fixed principal-type set, the Terraform renderer
emits exactly one block per distinct type tag — the blocks follow the
order in which the types first occur in the input, each block lists
that type's identifiers in their original relative order (`filter`
preserves input order), and the block list has no duplicate types. -/
theorem tf_principal_grouping (ps : List Principal) (tag : String) (sb : StringBuffer)
    (hty : ∀ q ∈ ps, q.type ∈ (["AWS", "Service", "Federated", "CanonicalUser", "*"] :
      List String))
    (hlvl : 0 ≤ sb.indentLevel) :
    (TerraformConverter.convertPrincipals ps tag false sb).buffer
      = sb.buffer ++ ((firstSeenTypes ps).map (fun t =>
          tfPrincipalBlock sb.indentBy sb.indentLevel.toNat tag t
            (ps.filter (fun q => q.type == t)))).flatten
    ∧ (firstSeenTypes ps).Nodup
    ∧ (∀ t, t ∈ firstSeenTypes ps ↔ t ∈ ps.map Principal.type) := by
  refine ⟨?_, firstSeenTypes_nodup ps, fun t => mem_firstSeenTypes ps t⟩
  rw [convertPrincipals_runs ps tag false sb hlvl]
  simp [tfPrincipals]

/-- Witness for C5 at a concrete interleaved principal list. -/
theorem tf_principal_grouping_witness :
    (∀ q ∈ ([⟨"Service", "s3.amazonaws.com"⟩, ⟨"AWS", "arn:aws:iam::1:root"⟩,
        ⟨"Service", "ec2.amazonaws.com"⟩] : List Principal),
      q.type ∈ (["AWS", "Service", "Federated", "CanonicalUser", "*"] : List String))
    ∧ ((TerraformConverter.convertPrincipals
          [⟨"Service", "s3.amazonaws.com"⟩, ⟨"AWS", "arn:aws:iam::1:root"⟩,
           ⟨"Service", "ec2.amazonaws.com"⟩] "principals" false
          (StringBuffer.new none none)).buffer
        = (StringBuffer.new none none).buffer
          ++ ((firstSeenTypes [⟨"Service", "s3.amazonaws.com"⟩, ⟨"AWS", "arn:aws:iam::1:root"⟩,
                ⟨"Service", "ec2.amazonaws.com"⟩]).map (fun t =>
              tfPrincipalBlock (StringBuffer.new none none).indentBy
                (StringBuffer.new none none).indentLevel.toNat "principals" t
                (([⟨"Service", "s3.amazonaws.com"⟩, ⟨"AWS", "arn:aws:iam::1:root"⟩,
                   ⟨"Service", "ec2.amazonaws.com"⟩] : List Principal).filter
                  (fun q => q.type == t)))).flatten
        ∧ (firstSeenTypes [⟨"Service", "s3.amazonaws.com"⟩, ⟨"AWS", "arn:aws:iam::1:root"⟩,
            ⟨"Service", "ec2.amazonaws.com"⟩]).Nodup
        ∧ (∀ t, t ∈ firstSeenTypes [⟨"Service", "s3.amazonaws.com"⟩,
              ⟨"AWS", "arn:aws:iam::1:root"⟩, ⟨"Service", "ec2.amazonaws.com"⟩]
            ↔ t ∈ ([⟨"Service", "s3.amazonaws.com"⟩, ⟨"AWS", "arn:aws:iam::1:root"⟩,
                ⟨"Service", "ec2.amazonaws.com"⟩] : List Principal).map Principal.type)) :=
  ⟨by decide, tf_principal_grouping
    [⟨"Service", "s3.amazonaws.com"⟩, ⟨"AWS", "arn:aws:iam::1:root"⟩,
     ⟨"Service", "ec2.amazonaws.com"⟩] "principals" (StringBuffer.new none none)
    (by decide) (by decide)⟩

/-- C6 counterexample: a statement classified as an action statement
with an empty action list still makes the Terraform renderer emit the
opening and closing bracket lines — the array is not omitted. -/
theorem tf_empty_actions_counterexample :
    (TerraformConverter.convert
        { statements := [{ isActionStatement := true }] }
        (StringBuffer.new none none)).buffer
      = ["data \"aws_iam_policy_document\" \"policy\" \x7b", "  statement \x7b",
         "    actions = [", "    ]", "  \x7d", "\x7d"]
    ∧ "    actions = [" ∈ (TerraformConverter.convert
        { statements := [{ isActionStatement := true }] }
        (StringBuffer.new none none)).buffer := by
  refine ⟨by decide, by decide⟩

/-- C6 (amended): when a statement is classified as an action statement
but its action list is empty, the renderer emits the opening bracket
line and the closing bracket line adjacent to each other (no element
lines in between); the empty array is rendered, not omitted.  The same
code path (`convertActions` looping over an empty list between the two
fixed `pushLine` calls) applies to the three sibling fields. -/
theorem tf_empty_actions_brackets (s : Statement) (sb : StringBuffer)
    (ha : s.isActionStatement = true) (he : s.actions = [])
    (hlvl : 0 ≤ sb.indentLevel) :
    (TerraformConverter.stmtBody s sb).buffer
      = sb.buffer
        ++ ((match s.sid with
            | some sd =>
                if sd ≠ "" then
                  [strRepeat sb.indentBy sb.indentLevel.toNat ++ ("sid = \"" ++ sd ++ "\""),
                   strRepeat sb.indentBy sb.indentLevel.toNat]
                else []
            | none => [])
          ++ (if s.isDeny then
                [strRepeat sb.indentBy sb.indentLevel.toNat ++ "effect = \"Deny\""]
              else []))
        ++ [strRepeat sb.indentBy sb.indentLevel.toNat ++ "actions = [",
            strRepeat sb.indentBy sb.indentLevel.toNat ++ "]"]
        ++ ((if s.isNotActionStatement then
              [strRepeat sb.indentBy sb.indentLevel.toNat ++ "not_actions = ["]
                ++ tfArray sb.indentBy (sb.indentLevel.toNat + 1) s.notActions
                ++ [strRepeat sb.indentBy sb.indentLevel.toNat ++ "]"]
            else [])
          ++ (if s.isResourceStatement then
                [strRepeat sb.indentBy sb.indentLevel.toNat ++ "resources = ["]
                  ++ tfArray sb.indentBy (sb.indentLevel.toNat + 1) s.resources
                  ++ [strRepeat sb.indentBy sb.indentLevel.toNat ++ "]"]
              else [])
          ++ (if s.isNotResourceStatement then
                [strRepeat sb.indentBy sb.indentLevel.toNat ++ "not_resources = ["]
                  ++ tfArray sb.indentBy (sb.indentLevel.toNat + 1) s.notResources
                  ++ [strRepeat sb.indentBy sb.indentLevel.toNat ++ "]"]
              else [])
          ++ (if s.isPrincipalStatement then
                tfPrincipals sb.indentBy sb.indentLevel.toNat "principals"
                  s.hasSingleWildcardPrincipal s.principals
              else [])
          ++ (if s.isNotPrincipalStatement then
                tfPrincipals sb.indentBy sb.indentLevel.toNat "not_principals"
                  s.hasSingleWildcardNotPrincipal s.notPrincipals
              else [])
          ++ tfConditions sb.indentBy sb.indentLevel.toNat s.conditions) := by
  rw [stmtBody_runs s sb hlvl]
  simp only [tfStmtLines, ha, he, if_true, tfArray, List.enum_nil, List.map_nil,
    List.length_nil]
  simp [List.append_assoc]

/-- Witness for C6 (amended) at a concrete statement with an empty
action list and a sid. -/
theorem tf_empty_actions_brackets_witness :
    (TerraformConverter.stmtBody { sid := some "S", isActionStatement := true }
        (StringBuffer.new none none)).buffer
      = ["sid = \"S\"", "", "actions = [", "]"] := by
  have h := tf_empty_actions_brackets { sid := some "S", isActionStatement := true }
    (StringBuffer.new none none) (by decide) (by decide) (by decide)
  rw [h]
  decide

/-- Witness for C2 (amended) at a concrete non-default version. -/
theorem tf_version_line_witness :
    (TerraformConverter.convert { version := some "2008-10-17", statements := [] }
        (StringBuffer.new none none)).buffer.count
      ("  version = \"" ++ "2008-10-17" ++ "\"") = 1 :=
  (tf_version_line { version := some "2008-10-17", statements := [] } "2008-10-17").1
    rfl (by decide) (by decide)

/-- Witness for C10 (amended) at a concrete buffer and throwing body. -/
theorem withIndent_throw_behavior_witness :
    (StringBuffer.withIndentCatch (throwingBody [BufOp.indent] "err")
        (StringBuffer.new none none)).2 = some "err" :=
  (withIndent_throw_behavior (StringBuffer.new none none) [BufOp.indent] ["x"] "err"
    (by decide)).1

/-! ## The CDK TypeScript converter (`src/converters/cdkTypescript.ts`) -/

/-- The options object passed to a converter's `convert` (only the CDK
TypeScript converter declares and reads it). -/
structure ConverterOptions where
  variableName : Option String := none
deriving Repr, DecidableEq

namespace CdkTypescriptConverter

/-- `options?.variableName || 'policyDocument'` (JavaScript `||`: an
absent or empty string falls back to the default identifier). -/
def resolveVariableName (options : Option ConverterOptions) : String :=
  match options with
  | some o =>
      match o.variableName with
      | some n => if n ≠ "" then n else "policyDocument"
      | none => "policyDocument"
  | none => "policyDocument"

def convertActions (actions : List String) (propertyName : String)
    (sb : StringBuffer) : StringBuffer :=
  if actions.isEmpty then sb
  else
    let sb := sb.pushLine (propertyName ++ ": [")
    let sb := StringBuffer.withIndent
      (fun arrBuffer =>
        actions.enum.foldl
          (fun b ia =>
            b.pushLine ("\"" ++ ia.2 ++ "\""
              ++ (if ia.1 < actions.length - 1 then "," else "")))
          arrBuffer)
      sb
    sb.pushLine "],"

def convertResources (resources : List String) (propertyName : String)
    (sb : StringBuffer) : StringBuffer :=
  if resources.isEmpty then sb
  else
    let sb := sb.pushLine (propertyName ++ ": [")
    let sb := StringBuffer.withIndent
      (fun arrBuffer =>
        resources.foldl (fun b r => b.pushLine ("\"" ++ r ++ "\",")) arrBuffer)
      sb
    sb.pushLine "],"

/-- The principal constructor selected by the type tag (fallback:
`ArnPrincipal`). -/
def principalCtor (p : Principal) : String :=
  if p.type == "AWS" then "new iam.ArnPrincipal(\"" ++ p.value ++ "\")"
  else if p.type == "Service" then "new iam.ServicePrincipal(\"" ++ p.value ++ "\")"
  else if p.type == "Federated" then "new iam.FederatedPrincipal(\"" ++ p.value ++ "\")"
  else if p.type == "CanonicalUser" then "new iam.CanonicalUserPrincipal(\"" ++ p.value ++ "\")"
  else "new iam.ArnPrincipal(\"" ++ p.value ++ "\")"

def convertPrincipals (principals : List Principal) (propertyName : String)
    (hasSingleWildcard : Bool) (sb : StringBuffer) : StringBuffer :=
  if hasSingleWildcard then
    sb.pushLine (propertyName ++ ": [new iam.StarPrincipal()],")
  else if principals.isEmpty then sb
  else
    let sb := sb.pushLine (propertyName ++ ": [")
    let sb := StringBuffer.withIndent
      (fun arrBuffer =>
        principals.foldl (fun b p => b.pushLine (principalCtor p ++ ",")) arrBuffer)
      sb
    sb.pushLine "],"

def convertConditions (conditions : List Condition) (sb : StringBuffer) : StringBuffer :=
  if conditions.isEmpty then sb
  else
    let conditionMap := buildConditionMap conditions
    let sb := sb.pushLine "conditions: \x7b"
    let sb := StringBuffer.withIndent
      (fun condBuffer =>
        conditionMap.foldl
          (fun cb opEntry =>
            let cb := cb.pushLine (opEntry.1 ++ ": \x7b")
            let cb := StringBuffer.withIndent
              (fun opBuffer =>
                opEntry.2.foldl
                  (fun ob kv =>
                    match kv.2 with
                    | .inr vs =>
                        let ob := ob.pushLine ("\"" ++ kv.1 ++ "\": [")
                        let ob := StringBuffer.withIndent
                          (fun arrBuffer =>
                            vs.foldl (fun b v => b.pushLine ("\"" ++ v ++ "\",")) arrBuffer)
                          ob
                        ob.pushLine "],"
                    | .inl v => ob.pushLine ("\"" ++ kv.1 ++ "\": \"" ++ v ++ "\","))
                  opBuffer)
              cb
            cb.pushLine "\x7d,")
          condBuffer)
      sb
    sb.pushLine "\x7d,"

/-- The per-statement closure passed to `withIndent`. -/
def stmtBody (statement : Statement) (stmtBuffer : StringBuffer) : StringBuffer :=
  let sb :=
    match statement.sid with
    | some sd =>
        if sd ≠ "" then stmtBuffer.pushLine ("sid: \"" ++ sd ++ "\",") else stmtBuffer
    | none => stmtBuffer
  let sb := if statement.effect.isSome then
      sb.pushLine ("effect: iam.Effect."
        ++ (if statement.isDeny then "DENY" else "ALLOW") ++ ",")
    else sb
  let sb := if statement.isActionStatement then
      convertActions statement.actions "actions" sb
    else if statement.isNotActionStatement then
      convertActions statement.notActions "notActions" sb
    else sb
  let sb := if statement.isResourceStatement then
      convertResources statement.resources "resources" sb
    else if statement.isNotResourceStatement then
      convertResources statement.notResources "notResources" sb
    else sb
  let sb := if statement.isPrincipalStatement then
      convertPrincipals statement.principals "principals"
        statement.hasSingleWildcardPrincipal sb
    else if statement.isNotPrincipalStatement then
      convertPrincipals statement.notPrincipals "notPrincipals"
        statement.hasSingleWildcardNotPrincipal sb
    else sb
  convertConditions statement.conditions sb

def convert (policy : Policy) (sb : StringBuffer) (options : Option ConverterOptions) :
    StringBuffer :=
  let variableName := resolveVariableName options
  let sb := sb.pushLine ("const " ++ variableName ++ " = new iam.PolicyDocument(\x7b")
  let sb := StringBuffer.withIndent
    (fun docBuffer =>
      let db := docBuffer.pushLine "statements: ["
      let db := StringBuffer.withIndent
        (fun stmtsBuffer =>
          policy.statements.enum.foldl
            (fun b ist =>
              let b := b.pushLine "new iam.PolicyStatement(\x7b"
              let b := StringBuffer.withIndent (stmtBody ist.2) b
              if ist.1 = policy.statements.length - 1 then b.pushLine "\x7d)"
              else b.pushLine "\x7d),")
            stmtsBuffer)
        db
      db.pushLine "]")
    sb
  sb.pushLine "\x7d);"

end CdkTypescriptConverter

/-! ## The CDK Python converter (`src/converters/cdkPython.ts`)

Its `convert` takes no options argument (the dispatcher's options are
ignored), the variable name is the fixed `policy_document`, statements
always close with a trailing comma, the effect field is emitted only
for an explicit Deny, and there is no `CanonicalUser` constructor
branch. -/

namespace CdkPythonConverter

def convertActions (actions : List String) (propertyName : String)
    (sb : StringBuffer) : StringBuffer :=
  if actions.isEmpty then sb
  else
    let sb := sb.pushLine (propertyName ++ "=[")
    let sb := StringBuffer.withIndent
      (fun arrBuffer =>
        actions.foldl (fun b a => b.pushLine ("\"" ++ a ++ "\",")) arrBuffer)
      sb
    sb.pushLine "],"

def convertResources (resources : List String) (propertyName : String)
    (sb : StringBuffer) : StringBuffer :=
  if resources.isEmpty then sb
  else
    let sb := sb.pushLine (propertyName ++ "=[")
    let sb := StringBuffer.withIndent
      (fun arrBuffer =>
        resources.foldl (fun b r => b.pushLine ("\"" ++ r ++ "\",")) arrBuffer)
      sb
    sb.pushLine "],"

/-- Python principal constructor: `AWS` with value `*` becomes
`iam.AnyPrincipal()`; unknown types (including `CanonicalUser`) fall
back to `iam.ArnPrincipal`. -/
def principalCtor (p : Principal) : String :=
  if p.type == "AWS" then
    if p.value == "*" then "iam.AnyPrincipal()"
    else "iam.ArnPrincipal(\"" ++ p.value ++ "\")"
  else if p.type == "Service" then "iam.ServicePrincipal(\"" ++ p.value ++ "\")"
  else if p.type == "Federated" then "iam.FederatedPrincipal(\"" ++ p.value ++ "\")"
  else "iam.ArnPrincipal(\"" ++ p.value ++ "\")"

def convertPrincipals (principals : List Principal) (propertyName : String)
    (hasSingleWildcard : Bool) (sb : StringBuffer) : StringBuffer :=
  if hasSingleWildcard then
    sb.pushLine (propertyName ++ "=[iam.StarPrincipal()],")
  else if principals.isEmpty then sb
  else
    let sb := sb.pushLine (propertyName ++ "=[")
    let sb := StringBuffer.withIndent
      (fun arrBuffer =>
        principals.foldl (fun b p => b.pushLine (principalCtor p ++ ",")) arrBuffer)
      sb
    sb.pushLine "],"

def convertConditions (conditions : List Condition) (sb : StringBuffer) : StringBuffer :=
  if conditions.isEmpty then sb
  else
    let conditionMap := buildConditionMap conditions
    let sb := sb.pushLine "conditions=\x7b"
    let sb := StringBuffer.withIndent
      (fun condBuffer =>
        conditionMap.foldl
          (fun cb opEntry =>
            let cb := cb.pushLine ("\"" ++ opEntry.1 ++ "\": \x7b")
            let cb := StringBuffer.withIndent
              (fun opBuffer =>
                opEntry.2.foldl
                  (fun ob kv =>
                    match kv.2 with
                    | .inr vs =>
                        let ob := ob.pushLine ("\"" ++ kv.1 ++ "\": [")
                        let ob := StringBuffer.withIndent
                          (fun arrBuffer =>
                            vs.foldl (fun b v => b.pushLine ("\"" ++ v ++ "\",")) arrBuffer)
                          ob
                        ob.pushLine "],"
                    | .inl v => ob.pushLine ("\"" ++ kv.1 ++ "\": \"" ++ v ++ "\","))
                  opBuffer)
              cb
            cb.pushLine "\x7d,")
          condBuffer)
      sb
    sb.pushLine "\x7d,"

/-- The per-statement closure passed to `withIndent`. -/
def stmtBody (statement : Statement) (stmtBuffer : StringBuffer) : StringBuffer :=
  let sb :=
    match statement.sid with
    | some sd =>
        if sd ≠ "" then stmtBuffer.pushLine ("sid=\"" ++ sd ++ "\",") else stmtBuffer
    | none => stmtBuffer
  let sb := if statement.effect.isSome ∧ ¬ statement.isAllow then
      sb.pushLine "effect=Effect.DENY,"
    else sb
  let sb := if statement.isActionStatement then
      convertActions statement.actions "actions" sb
    else if statement.isNotActionStatement then
      convertActions statement.notActions "not_actions" sb
    else sb
  let sb := if statement.isResourceStatement then
      convertResources statement.resources "resources" sb
    else if statement.isNotResourceStatement then
      convertResources statement.notResources "not_resources" sb
    else sb
  let sb := if statement.isPrincipalStatement then
      convertPrincipals statement.principals "principals"
        statement.hasSingleWildcardPrincipal sb
    else if statement.isNotPrincipalStatement then
      convertPrincipals statement.notPrincipals "not_principals"
        statement.hasSingleWildcardNotPrincipal sb
    else sb
  convertConditions statement.conditions sb

def convert (policy : Policy) (sb : StringBuffer) : StringBuffer :=
  let sb := sb.pushLine "policy_document = iam.PolicyDocument("
  let sb := StringBuffer.withIndent
    (fun docBuffer =>
      let db := docBuffer.pushLine "statements=["
      let db := StringBuffer.withIndent
        (fun stmtsBuffer =>
          policy.statements.foldl
            (fun b statement =>
              let b := b.pushLine "iam.PolicyStatement("
              let b := StringBuffer.withIndent (stmtBody statement) b
              b.pushLine "),")
            stmtsBuffer)
        db
      db.pushLine "],")
    sb
  sb.pushLine ")"

end CdkPythonConverter

/-! ## The CloudFormation converter (`src/converters/cloudFormation.ts`)

A generic recursive YAML writer over the document's raw JSON
projection.  `withIndent` is written out as indent/body/unindent so the
recursion is structural for the termination checker (the definition of
`StringBuffer.withIndent` is exactly that composition). -/

namespace CloudFormationConverter

def isPrimitiveOrNull : JsonValue → Bool
  | .null => true
  | .str _ => true
  | .num _ => true
  | .bool _ => true
  | _ => false

/-- Scalar rendering: strings are double quoted, null prints `null`,
numbers and booleans print bare (`String(value)`); never called on
arrays or objects (made total with an unreachable empty result). -/
def stringifyScalar : JsonValue → String
  | .null => "null"
  | .str s => "\"" ++ s ++ "\""
  | .num r => r
  | .bool b => if b then "true" else "false"
  | _ => ""

/-- `yamlKey` on the character list of the key: a `- ` prefix is kept
and the remainder re-quoted; a key matching `/^[a-zA-Z0-9_]+$/` is kept
bare, anything else double quoted. -/
def yamlKeyAux : List Char → String
  | '-' :: ' ' :: rest => "- " ++ yamlKeyAux rest
  | l =>
      if l ≠ [] ∧ l.all (fun c => c.isAlphanum || c == '_') then String.mk l
      else "\"" ++ String.mk l ++ "\""

def yamlKey (key : String) : String := yamlKeyAux key.data

mutual

def writeYamlValue (value : JsonValue) (startWithDash : Bool) (sb : StringBuffer) :
    StringBuffer :=
  match value with
  | .null => sb.pushLine "null"
  | .arr [] => sb.pushLine "[]"
  | .arr (e :: es) => writeYamlArrElems (e :: es) sb
  | .obj [] => sb.pushLine "\x7b\x7d"
  | .obj ((k, v0) :: rest) =>
      let dash := if startWithDash then "- " else ""
      let sb := pushObjectValue (dash ++ k) v0 sb
      let sb := if startWithDash then sb.indent else sb
      let sb := writeYamlObjFields rest sb
      if startWithDash then sb.unindent else sb
  | .str s => sb.pushLine (stringifyScalar (.str s))
  | .num r => sb.pushLine (stringifyScalar (.num r))
  | .bool b => sb.pushLine (stringifyScalar (.bool b))

def writeYamlArrElems (es : List JsonValue) (sb : StringBuffer) : StringBuffer :=
  match es with
  | [] => sb
  | e :: rest =>
      let sb := if isPrimitiveOrNull e then sb.pushLine ("- " ++ stringifyScalar e)
        else writeYamlValue e true sb
      writeYamlArrElems rest sb

def writeYamlObjFields (fs : List (String × JsonValue)) (sb : StringBuffer) :
    StringBuffer :=
  match fs with
  | [] => sb
  | (k, v) :: rest => writeYamlObjFields rest (pushObjectValue k v sb)

def pushObjectValue (key : String) (v : JsonValue) (sb : StringBuffer) : StringBuffer :=
  if isPrimitiveOrNull v then
    sb.pushLine (yamlKey key ++ ": " ++ stringifyScalar v)
  else
    let sb := sb.pushLine (yamlKey key ++ ":")
    (writeYamlValue v false sb.indent).unindent

end

def convert (policy : Policy) (sb : StringBuffer) : StringBuffer :=
  let policyJson := policy.toJSON
  let sb := sb.pushLine "PolicyDocument:"
  (writeYamlValue policyJson false sb.indent).unindent

end CloudFormationConverter

/-! ## The dispatcher (`src/convert.ts`)

`convert` looks the format up in the fixed converter table, throws an
Unsupported-Format error for an unknown identifier (modelled as
`Except.error`), merges the defaults with the caller's options (caller
values win), runs the matching converter against a fresh buffer built
from the merged options and returns the joined text. -/

structure ConvertOptions where
  indentBy : Option String := none
  lineSeparator : Option String := none
  variableName : Option String := none
deriving Repr, DecidableEq

/-- Modelled from the spec: `src/defaults.ts` is not part of the
provided sources; §4.1 and §4.2 of the design give a two-space indent
unit and a `\n` line separator as the defaults merged with
caller-supplied options. -/
def defaultOptions : ConvertOptions :=
  { indentBy := some "  ", lineSeparator := some "\n", variableName := none }

/-- `{ ...defaultOptions, ...(options || {}) }`: per-field, a value
present in the caller's options wins. -/
def mergeOptions (options : Option ConvertOptions) : ConvertOptions :=
  let o := options.getD {}
  { indentBy := o.indentBy.orElse (fun _ => defaultOptions.indentBy)
    lineSeparator := o.lineSeparator.orElse (fun _ => defaultOptions.lineSeparator)
    variableName := o.variableName.orElse (fun _ => defaultOptions.variableName) }

/-- The converter table `{ tf, cf, 'cdk-ts', 'cdk-py' }`; each entry is
the instantiated converter's `convert` method, applied as the
dispatcher does (the third argument `{ variableName }` is only
declared — and hence only received — by the CDK TypeScript one). -/
def converters : List (String × (Policy → StringBuffer → Option String → StringBuffer)) :=
  [("tf", fun policy sb _ => TerraformConverter.convert policy sb),
   ("cf", fun policy sb _ => CloudFormationConverter.convert policy sb),
   ("cdk-ts", fun policy sb vn =>
      CdkTypescriptConverter.convert policy sb (some { variableName := vn })),
   ("cdk-py", fun policy sb _ => CdkPythonConverter.convert policy sb)]

/-- The fresh buffer the dispatcher constructs from the merged options. -/
def freshBufferFor (merged : ConvertOptions) : StringBuffer :=
  StringBuffer.new merged.indentBy merged.lineSeparator

def convert (policy : Policy) (format : String) (options : Option ConvertOptions) :
    Except String String :=
  match lookupList converters format with
  | none => .error ("Unsupported format: " ++ format)
  | some converter =>
      let merged := mergeOptions options
      let stringBuffer := freshBufferFor merged
      let out := converter policy stringBuffer merged.variableName
      .ok out.render

/-! ## Pure line denotations of the CDK converters -/

def cdkTsArray (u : String) (l : Nat) (vals : List String) : List String :=
  vals.enum.map (fun iv =>
    strRepeat u l ++ ("\"" ++ iv.2 ++ "\"" ++ (if iv.1 < vals.length - 1 then "," else "")))

def cdkAlways (u : String) (l : Nat) (vals : List String) : List String :=
  vals.map (fun v => strRepeat u l ++ ("\"" ++ v ++ "\","))

def cdkTsActionsLines (u : String) (l : Nat) (prop : String) (as : List String) :
    List String :=
  if as.isEmpty then []
  else [strRepeat u l ++ (prop ++ ": [")] ++ cdkTsArray u (l + 1) as
    ++ [strRepeat u l ++ "],"]

def cdkTsResourcesLines (u : String) (l : Nat) (prop : String) (rs : List String) :
    List String :=
  if rs.isEmpty then []
  else [strRepeat u l ++ (prop ++ ": [")] ++ cdkAlways u (l + 1) rs
    ++ [strRepeat u l ++ "],"]

def cdkTsPrincipalsLines (u : String) (l : Nat) (prop : String) (wild : Bool)
    (ps : List Principal) : List String :=
  if wild then [strRepeat u l ++ (prop ++ ": [new iam.StarPrincipal()],")]
  else if ps.isEmpty then []
  else [strRepeat u l ++ (prop ++ ": [")]
    ++ ps.map (fun p => strRepeat u (l + 1) ++ (CdkTypescriptConverter.principalCtor p ++ ","))
    ++ [strRepeat u l ++ "],"]

def cdkCondEntryLines (u : String) (l : Nat) (kv : String × StrOrList) : List String :=
  match kv.2 with
  | .inl v => [strRepeat u l ++ ("\"" ++ kv.1 ++ "\": \"" ++ v ++ "\",")]
  | .inr vs =>
      [strRepeat u l ++ ("\"" ++ kv.1 ++ "\": [")] ++ cdkAlways u (l + 1) vs
        ++ [strRepeat u l ++ "],"]

def cdkTsConditionsLines (u : String) (l : Nat) (conds : List Condition) : List String :=
  if conds.isEmpty then []
  else [strRepeat u l ++ "conditions: \x7b"]
    ++ ((buildConditionMap conds).map (fun opE =>
        [strRepeat u (l + 1) ++ (opE.1 ++ ": \x7b")]
          ++ (opE.2.map (fun kv => cdkCondEntryLines u (l + 2) kv)).flatten
          ++ [strRepeat u (l + 1) ++ "\x7d,"])).flatten
    ++ [strRepeat u l ++ "\x7d,"]

def cdkTsStmtLines (u : String) (l : Nat) (s : Statement) : List String :=
  (match s.sid with
   | some sd => if sd ≠ "" then [strRepeat u l ++ ("sid: \"" ++ sd ++ "\",")] else []
   | none => [])
  ++ (if s.effect.isSome then
        [strRepeat u l ++ ("effect: iam.Effect."
          ++ (if s.isDeny then "DENY" else "ALLOW") ++ ",")]
      else [])
  ++ (if s.isActionStatement then cdkTsActionsLines u l "actions" s.actions
      else if s.isNotActionStatement then cdkTsActionsLines u l "notActions" s.notActions
      else [])
  ++ (if s.isResourceStatement then cdkTsResourcesLines u l "resources" s.resources
      else if s.isNotResourceStatement then
        cdkTsResourcesLines u l "notResources" s.notResources
      else [])
  ++ (if s.isPrincipalStatement then
        cdkTsPrincipalsLines u l "principals" s.hasSingleWildcardPrincipal s.principals
      else if s.isNotPrincipalStatement then
        cdkTsPrincipalsLines u l "notPrincipals" s.hasSingleWildcardNotPrincipal s.notPrincipals
      else [])
  ++ cdkTsConditionsLines u l s.conditions

def cdkTsLines (u : String) (l : Nat) (vn : String) (ss : List Statement) : List String :=
  [strRepeat u l ++ ("const " ++ vn ++ " = new iam.PolicyDocument(\x7b"),
   strRepeat u (l + 1) ++ "statements: ["]
  ++ (ss.enum.map (fun ist =>
      [strRepeat u (l + 2) ++ "new iam.PolicyStatement(\x7b"]
        ++ cdkTsStmtLines u (l + 3) ist.2
        ++ (if ist.1 = ss.length - 1 then [strRepeat u (l + 2) ++ "\x7d)"]
            else [strRepeat u (l + 2) ++ "\x7d),"]))).flatten
  ++ [strRepeat u (l + 1) ++ "]", strRepeat u l ++ "\x7d);"]

def cdkPyFieldLines (u : String) (l : Nat) (prop : String) (vs : List String) :
    List String :=
  if vs.isEmpty then []
  else [strRepeat u l ++ (prop ++ "=[")] ++ cdkAlways u (l + 1) vs
    ++ [strRepeat u l ++ "],"]

def cdkPyPrincipalsLines (u : String) (l : Nat) (prop : String) (wild : Bool)
    (ps : List Principal) : List String :=
  if wild then [strRepeat u l ++ (prop ++ "=[iam.StarPrincipal()],")]
  else if ps.isEmpty then []
  else [strRepeat u l ++ (prop ++ "=[")]
    ++ ps.map (fun p => strRepeat u (l + 1) ++ (CdkPythonConverter.principalCtor p ++ ","))
    ++ [strRepeat u l ++ "],"]

def cdkPyConditionsLines (u : String) (l : Nat) (conds : List Condition) : List String :=
  if conds.isEmpty then []
  else [strRepeat u l ++ "conditions=\x7b"]
    ++ ((buildConditionMap conds).map (fun opE =>
        [strRepeat u (l + 1) ++ ("\"" ++ opE.1 ++ "\": \x7b")]
          ++ (opE.2.map (fun kv => cdkCondEntryLines u (l + 2) kv)).flatten
          ++ [strRepeat u (l + 1) ++ "\x7d,"])).flatten
    ++ [strRepeat u l ++ "\x7d,"]

def cdkPyStmtLines (u : String) (l : Nat) (s : Statement) : List String :=
  (match s.sid with
   | some sd => if sd ≠ "" then [strRepeat u l ++ ("sid=\"" ++ sd ++ "\",")] else []
   | none => [])
  ++ (if s.effect.isSome ∧ ¬ s.isAllow then [strRepeat u l ++ "effect=Effect.DENY,"]
      else [])
  ++ (if s.isActionStatement then cdkPyFieldLines u l "actions" s.actions
      else if s.isNotActionStatement then cdkPyFieldLines u l "not_actions" s.notActions
      else [])
  ++ (if s.isResourceStatement then cdkPyFieldLines u l "resources" s.resources
      else if s.isNotResourceStatement then
        cdkPyFieldLines u l "not_resources" s.notResources
      else [])
  ++ (if s.isPrincipalStatement then
        cdkPyPrincipalsLines u l "principals" s.hasSingleWildcardPrincipal s.principals
      else if s.isNotPrincipalStatement then
        cdkPyPrincipalsLines u l "not_principals" s.hasSingleWildcardNotPrincipal
          s.notPrincipals
      else [])
  ++ cdkPyConditionsLines u l s.conditions

def cdkPyLines (u : String) (l : Nat) (ss : List Statement) : List String :=
  [strRepeat u l ++ "policy_document = iam.PolicyDocument(",
   strRepeat u (l + 1) ++ "statements=["]
  ++ (ss.map (fun s =>
      [strRepeat u (l + 2) ++ "iam.PolicyStatement("]
        ++ cdkPyStmtLines u (l + 3) s
        ++ [strRepeat u (l + 2) ++ "),"])).flatten
  ++ [strRepeat u (l + 1) ++ "],", strRepeat u l ++ ")"]

/-! ## Run lemmas for the CDK converters -/

theorem cdkCondEntry_runs (kv : String × StrOrList) :
    RunsTo (fun ob =>
      match kv.2 with
      | .inr vs =>
          (StringBuffer.withIndent
            (fun arrBuffer =>
              vs.foldl (fun b v => b.pushLine ("\"" ++ v ++ "\",")) arrBuffer)
            (ob.pushLine ("\"" ++ kv.1 ++ "\": ["))).pushLine "],"
      | .inl v => ob.pushLine ("\"" ++ kv.1 ++ "\": \"" ++ v ++ "\","))
    (fun u l => cdkCondEntryLines u l kv) := by
  rcases kv with ⟨k, v | vs⟩
  · refine runsTo_congr (runsTo_pushLine ("\"" ++ k ++ "\": \"" ++ v ++ "\",")) ?_
    intro u l
    simp [cdkCondEntryLines]
  · have hcomp := runsTo_seq (runsTo_seq (runsTo_pushLine ("\"" ++ k ++ "\": ["))
      (runsTo_withIndent (runsTo_foldl _
        (fun v u l => [strRepeat u l ++ ("\"" ++ v ++ "\",")])
        (fun v => runsTo_pushLine _) vs)))
      (runsTo_pushLine "],")
    refine runsTo_congr hcomp ?_
    intro u l
    simp [cdkCondEntryLines, cdkAlways, List.append_assoc]

theorem cdkTsCondOp_runs (opE : String × List (String × StrOrList)) :
    RunsTo (fun cb =>
      (StringBuffer.withIndent
        (fun opBuffer =>
          opE.2.foldl
            (fun ob kv =>
              match kv.2 with
              | .inr vs =>
                  (StringBuffer.withIndent
                    (fun arrBuffer =>
                      vs.foldl (fun b v => b.pushLine ("\"" ++ v ++ "\",")) arrBuffer)
                    (ob.pushLine ("\"" ++ kv.1 ++ "\": ["))).pushLine "],"
              | .inl v => ob.pushLine ("\"" ++ kv.1 ++ "\": \"" ++ v ++ "\","))
            opBuffer)
        (cb.pushLine (opE.1 ++ ": \x7b"))).pushLine "\x7d,")
    (fun u l => [strRepeat u l ++ (opE.1 ++ ": \x7b")]
      ++ (opE.2.map (fun kv => cdkCondEntryLines u (l + 1) kv)).flatten
      ++ [strRepeat u l ++ "\x7d,"]) := by
  have hcomp := runsTo_seq (runsTo_seq (runsTo_pushLine (opE.1 ++ ": \x7b"))
    (runsTo_withIndent (runsTo_foldl _
      (fun kv u l => cdkCondEntryLines u l kv) cdkCondEntry_runs opE.2)))
    (runsTo_pushLine "\x7d,")
  refine runsTo_congr hcomp ?_
  intro u l
  simp [List.append_assoc]

theorem cdkPyCondOp_runs (opE : String × List (String × StrOrList)) :
    RunsTo (fun cb =>
      (StringBuffer.withIndent
        (fun opBuffer =>
          opE.2.foldl
            (fun ob kv =>
              match kv.2 with
              | .inr vs =>
                  (StringBuffer.withIndent
                    (fun arrBuffer =>
                      vs.foldl (fun b v => b.pushLine ("\"" ++ v ++ "\",")) arrBuffer)
                    (ob.pushLine ("\"" ++ kv.1 ++ "\": ["))).pushLine "],"
              | .inl v => ob.pushLine ("\"" ++ kv.1 ++ "\": \"" ++ v ++ "\","))
            opBuffer)
        (cb.pushLine ("\"" ++ opE.1 ++ "\": \x7b"))).pushLine "\x7d,")
    (fun u l => [strRepeat u l ++ ("\"" ++ opE.1 ++ "\": \x7b")]
      ++ (opE.2.map (fun kv => cdkCondEntryLines u (l + 1) kv)).flatten
      ++ [strRepeat u l ++ "\x7d,"]) := by
  have hcomp := runsTo_seq (runsTo_seq (runsTo_pushLine ("\"" ++ opE.1 ++ "\": \x7b"))
    (runsTo_withIndent (runsTo_foldl _
      (fun kv u l => cdkCondEntryLines u l kv) cdkCondEntry_runs opE.2)))
    (runsTo_pushLine "\x7d,")
  refine runsTo_congr hcomp ?_
  intro u l
  simp [List.append_assoc]

theorem cdkTsConditions_runs (conds : List Condition) :
    RunsTo (CdkTypescriptConverter.convertConditions conds)
      (fun u l => cdkTsConditionsLines u l conds) := by
  have hcomp := runsTo_cond (conds.isEmpty = true) runsTo_id
    (runsTo_seq (runsTo_seq (runsTo_pushLine "conditions: \x7b")
      (runsTo_withIndent (runsTo_foldl _
        (fun opE u l => [strRepeat u l ++ (opE.1 ++ ": \x7b")]
          ++ (opE.2.map (fun kv => cdkCondEntryLines u (l + 1) kv)).flatten
          ++ [strRepeat u l ++ "\x7d,"])
        cdkTsCondOp_runs (buildConditionMap conds))))
      (runsTo_pushLine "\x7d,"))
  refine runsTo_congr hcomp ?_
  intro u l
  by_cases hc : conds.isEmpty <;> simp [hc, cdkTsConditionsLines, List.append_assoc]

theorem cdkPyConditions_runs (conds : List Condition) :
    RunsTo (CdkPythonConverter.convertConditions conds)
      (fun u l => cdkPyConditionsLines u l conds) := by
  have hcomp := runsTo_cond (conds.isEmpty = true) runsTo_id
    (runsTo_seq (runsTo_seq (runsTo_pushLine "conditions=\x7b")
      (runsTo_withIndent (runsTo_foldl _
        (fun opE u l => [strRepeat u l ++ ("\"" ++ opE.1 ++ "\": \x7b")]
          ++ (opE.2.map (fun kv => cdkCondEntryLines u (l + 1) kv)).flatten
          ++ [strRepeat u l ++ "\x7d,"])
        cdkPyCondOp_runs (buildConditionMap conds))))
      (runsTo_pushLine "\x7d,"))
  refine runsTo_congr hcomp ?_
  intro u l
  by_cases hc : conds.isEmpty <;> simp [hc, cdkPyConditionsLines, List.append_assoc]

theorem cdkTsActions_runs (as : List String) (prop : String) :
    RunsTo (CdkTypescriptConverter.convertActions as prop)
      (fun u l => cdkTsActionsLines u l prop as) := by
  have hcomp := runsTo_cond (as.isEmpty = true) runsTo_id
    (runsTo_seq (runsTo_seq (runsTo_pushLine (prop ++ ": ["))
      (runsTo_withIndent (runsTo_foldl _
        (fun ia u l => [strRepeat u l ++ ("\"" ++ ia.2 ++ "\""
          ++ (if ia.1 < as.length - 1 then "," else ""))])
        (fun ia => runsTo_pushLine _) as.enum)))
      (runsTo_pushLine "],"))
  refine runsTo_congr hcomp ?_
  intro u l
  by_cases hc : as.isEmpty <;> simp [hc, cdkTsActionsLines, cdkTsArray, List.append_assoc]

theorem cdkTsResources_runs (rs : List String) (prop : String) :
    RunsTo (CdkTypescriptConverter.convertResources rs prop)
      (fun u l => cdkTsResourcesLines u l prop rs) := by
  have hcomp := runsTo_cond (rs.isEmpty = true) runsTo_id
    (runsTo_seq (runsTo_seq (runsTo_pushLine (prop ++ ": ["))
      (runsTo_withIndent (runsTo_foldl _
        (fun r u l => [strRepeat u l ++ ("\"" ++ r ++ "\",")])
        (fun r => runsTo_pushLine _) rs)))
      (runsTo_pushLine "],"))
  refine runsTo_congr hcomp ?_
  intro u l
  by_cases hc : rs.isEmpty <;> simp [hc, cdkTsResourcesLines, cdkAlways, List.append_assoc]

theorem cdkTsPrincipals_runs (ps : List Principal) (prop : String) (wild : Bool) :
    RunsTo (CdkTypescriptConverter.convertPrincipals ps prop wild)
      (fun u l => cdkTsPrincipalsLines u l prop wild ps) := by
  have hcomp := runsTo_cond (wild = true)
    (runsTo_pushLine (prop ++ ": [new iam.StarPrincipal()],"))
    (runsTo_cond (ps.isEmpty = true) runsTo_id
      (runsTo_seq (runsTo_seq (runsTo_pushLine (prop ++ ": ["))
        (runsTo_withIndent (runsTo_foldl _
          (fun p u l => [strRepeat u l ++ (CdkTypescriptConverter.principalCtor p ++ ",")])
          (fun p => runsTo_pushLine _) ps)))
        (runsTo_pushLine "],")))
  refine runsTo_congr hcomp ?_
  intro u l
  cases wild <;> by_cases hc : ps.isEmpty <;>
    simp [hc, cdkTsPrincipalsLines, List.append_assoc]

theorem cdkPyField_runs (vs : List String) (prop : String) :
    RunsTo (fun sb =>
      if vs.isEmpty then sb
      else
        (StringBuffer.withIndent
          (fun arrBuffer => vs.foldl (fun b a => b.pushLine ("\"" ++ a ++ "\",")) arrBuffer)
          (sb.pushLine (prop ++ "=["))).pushLine "],")
    (fun u l => cdkPyFieldLines u l prop vs) := by
  have hcomp := runsTo_cond (vs.isEmpty = true) runsTo_id
    (runsTo_seq (runsTo_seq (runsTo_pushLine (prop ++ "=["))
      (runsTo_withIndent (runsTo_foldl _
        (fun a u l => [strRepeat u l ++ ("\"" ++ a ++ "\",")])
        (fun a => runsTo_pushLine _) vs)))
      (runsTo_pushLine "],"))
  refine runsTo_congr hcomp ?_
  intro u l
  by_cases hc : vs.isEmpty <;> simp [hc, cdkPyFieldLines, cdkAlways, List.append_assoc]

theorem cdkPyActions_runs (as : List String) (prop : String) :
    RunsTo (CdkPythonConverter.convertActions as prop)
      (fun u l => cdkPyFieldLines u l prop as) :=
  cdkPyField_runs as prop

theorem cdkPyResources_runs (rs : List String) (prop : String) :
    RunsTo (CdkPythonConverter.convertResources rs prop)
      (fun u l => cdkPyFieldLines u l prop rs) :=
  cdkPyField_runs rs prop

theorem cdkPyPrincipals_runs (ps : List Principal) (prop : String) (wild : Bool) :
    RunsTo (CdkPythonConverter.convertPrincipals ps prop wild)
      (fun u l => cdkPyPrincipalsLines u l prop wild ps) := by
  have hcomp := runsTo_cond (wild = true)
    (runsTo_pushLine (prop ++ "=[iam.StarPrincipal()],"))
    (runsTo_cond (ps.isEmpty = true) runsTo_id
      (runsTo_seq (runsTo_seq (runsTo_pushLine (prop ++ "=["))
        (runsTo_withIndent (runsTo_foldl _
          (fun p u l => [strRepeat u l ++ (CdkPythonConverter.principalCtor p ++ ",")])
          (fun p => runsTo_pushLine _) ps)))
        (runsTo_pushLine "],")))
  refine runsTo_congr hcomp ?_
  intro u l
  cases wild <;> by_cases hc : ps.isEmpty <;>
    simp [hc, cdkPyPrincipalsLines, List.append_assoc]

theorem cdkTsStmtBody_runs (s : Statement) :
    RunsTo (CdkTypescriptConverter.stmtBody s) (fun u l => cdkTsStmtLines u l s) := by
  have hsid : RunsTo (fun sb : StringBuffer =>
      match s.sid with
      | some sd => if sd ≠ "" then sb.pushLine ("sid: \"" ++ sd ++ "\",") else sb
      | none => sb)
    (fun u l =>
      match s.sid with
      | some sd => if sd ≠ "" then [strRepeat u l ++ ("sid: \"" ++ sd ++ "\",")] else []
      | none => []) := by
    intro sb hsb
    cases s.sid with
    | none => simp
    | some sd =>
        by_cases hd : sd = ""
        · simp [hd]
        · simp [hd, StringBuffer.pushLine]
  have hcomp := runsTo_seq (runsTo_seq (runsTo_seq (runsTo_seq (runsTo_seq hsid
    (runsTo_cond (s.effect.isSome = true)
      (runsTo_pushLine ("effect: iam.Effect."
        ++ (if s.isDeny then "DENY" else "ALLOW") ++ ","))
      runsTo_id))
    (runsTo_cond (s.isActionStatement = true)
      (cdkTsActions_runs s.actions "actions")
      (runsTo_cond (s.isNotActionStatement = true)
        (cdkTsActions_runs s.notActions "notActions") runsTo_id)))
    (runsTo_cond (s.isResourceStatement = true)
      (cdkTsResources_runs s.resources "resources")
      (runsTo_cond (s.isNotResourceStatement = true)
        (cdkTsResources_runs s.notResources "notResources") runsTo_id)))
    (runsTo_cond (s.isPrincipalStatement = true)
      (cdkTsPrincipals_runs s.principals "principals" s.hasSingleWildcardPrincipal)
      (runsTo_cond (s.isNotPrincipalStatement = true)
        (cdkTsPrincipals_runs s.notPrincipals "notPrincipals"
          s.hasSingleWildcardNotPrincipal) runsTo_id)))
    (cdkTsConditions_runs s.conditions)
  refine runsTo_congr hcomp ?_
  intro u l
  cases hs : s.sid <;> simp [cdkTsStmtLines, hs, List.append_assoc]

theorem cdkPyStmtBody_runs (s : Statement) :
    RunsTo (CdkPythonConverter.stmtBody s) (fun u l => cdkPyStmtLines u l s) := by
  have hsid : RunsTo (fun sb : StringBuffer =>
      match s.sid with
      | some sd => if sd ≠ "" then sb.pushLine ("sid=\"" ++ sd ++ "\",") else sb
      | none => sb)
    (fun u l =>
      match s.sid with
      | some sd => if sd ≠ "" then [strRepeat u l ++ ("sid=\"" ++ sd ++ "\",")] else []
      | none => []) := by
    intro sb hsb
    cases s.sid with
    | none => simp
    | some sd =>
        by_cases hd : sd = ""
        · simp [hd]
        · simp [hd, StringBuffer.pushLine]
  have hcomp := runsTo_seq (runsTo_seq (runsTo_seq (runsTo_seq (runsTo_seq hsid
    (runsTo_cond (s.effect.isSome = true ∧ ¬ s.isAllow = true)
      (runsTo_pushLine "effect=Effect.DENY,")
      runsTo_id))
    (runsTo_cond (s.isActionStatement = true)
      (cdkPyActions_runs s.actions "actions")
      (runsTo_cond (s.isNotActionStatement = true)
        (cdkPyActions_runs s.notActions "not_actions") runsTo_id)))
    (runsTo_cond (s.isResourceStatement = true)
      (cdkPyResources_runs s.resources "resources")
      (runsTo_cond (s.isNotResourceStatement = true)
        (cdkPyResources_runs s.notResources "not_resources") runsTo_id)))
    (runsTo_cond (s.isPrincipalStatement = true)
      (cdkPyPrincipals_runs s.principals "principals" s.hasSingleWildcardPrincipal)
      (runsTo_cond (s.isNotPrincipalStatement = true)
        (cdkPyPrincipals_runs s.notPrincipals "not_principals"
          s.hasSingleWildcardNotPrincipal) runsTo_id)))
    (cdkPyConditions_runs s.conditions)
  refine runsTo_congr hcomp ?_
  intro u l
  cases hs : s.sid <;> simp [cdkPyStmtLines, hs, List.append_assoc]

theorem cdkTsConvert_runs (p : Policy) (opts : Option ConverterOptions) :
    RunsTo (fun sb => CdkTypescriptConverter.convert p sb opts)
      (fun u l => cdkTsLines u l (CdkTypescriptConverter.resolveVariableName opts)
        p.statements) := by
  have hblock : ∀ ist : Nat × Statement,
      RunsTo (fun b =>
        if ist.1 = p.statements.length - 1 then
          (StringBuffer.withIndent (CdkTypescriptConverter.stmtBody ist.2)
            (b.pushLine "new iam.PolicyStatement(\x7b")).pushLine "\x7d)"
        else
          (StringBuffer.withIndent (CdkTypescriptConverter.stmtBody ist.2)
            (b.pushLine "new iam.PolicyStatement(\x7b")).pushLine "\x7d),")
      (fun u l => [strRepeat u l ++ "new iam.PolicyStatement(\x7b"]
        ++ cdkTsStmtLines u (l + 1) ist.2
        ++ (if ist.1 = p.statements.length - 1 then [strRepeat u l ++ "\x7d)"]
            else [strRepeat u l ++ "\x7d),"])) := by
    intro ist
    have hcomp := runsTo_cond (ist.1 = p.statements.length - 1)
      (runsTo_seq (runsTo_seq (runsTo_pushLine "new iam.PolicyStatement(\x7b")
        (runsTo_withIndent (cdkTsStmtBody_runs ist.2))) (runsTo_pushLine "\x7d)"))
      (runsTo_seq (runsTo_seq (runsTo_pushLine "new iam.PolicyStatement(\x7b")
        (runsTo_withIndent (cdkTsStmtBody_runs ist.2))) (runsTo_pushLine "\x7d),"))
    refine runsTo_congr hcomp ?_
    intro u l
    by_cases hc : ist.1 = p.statements.length - 1 <;> simp [hc, List.append_assoc]
  have hcomp := runsTo_seq (runsTo_seq
    (runsTo_pushLine ("const " ++ CdkTypescriptConverter.resolveVariableName opts
      ++ " = new iam.PolicyDocument(\x7b"))
    (runsTo_withIndent (runsTo_seq (runsTo_seq (runsTo_pushLine "statements: [")
      (runsTo_withIndent (runsTo_foldl _
        (fun ist u l => [strRepeat u l ++ "new iam.PolicyStatement(\x7b"]
          ++ cdkTsStmtLines u (l + 1) ist.2
          ++ (if ist.1 = p.statements.length - 1 then [strRepeat u l ++ "\x7d)"]
              else [strRepeat u l ++ "\x7d),"]))
        hblock p.statements.enum)))
      (runsTo_pushLine "]"))))
    (runsTo_pushLine "\x7d);")
  refine runsTo_congr hcomp ?_
  intro u l
  simp [cdkTsLines, List.append_assoc]

theorem cdkPyConvert_runs (p : Policy) :
    RunsTo (CdkPythonConverter.convert p) (fun u l => cdkPyLines u l p.statements) := by
  have hblock : ∀ s : Statement,
      RunsTo (fun b =>
        (StringBuffer.withIndent (CdkPythonConverter.stmtBody s)
          (b.pushLine "iam.PolicyStatement(")).pushLine "),")
      (fun u l => [strRepeat u l ++ "iam.PolicyStatement("]
        ++ cdkPyStmtLines u (l + 1) s ++ [strRepeat u l ++ "),"]) := by
    intro s
    have hcomp := runsTo_seq (runsTo_seq (runsTo_pushLine "iam.PolicyStatement(")
      (runsTo_withIndent (cdkPyStmtBody_runs s))) (runsTo_pushLine "),")
    refine runsTo_congr hcomp ?_
    intro u l
    simp [List.append_assoc]
  have hcomp := runsTo_seq (runsTo_seq
    (runsTo_pushLine "policy_document = iam.PolicyDocument(")
    (runsTo_withIndent (runsTo_seq (runsTo_seq (runsTo_pushLine "statements=[")
      (runsTo_withIndent (runsTo_foldl _
        (fun s u l => [strRepeat u l ++ "iam.PolicyStatement("]
          ++ cdkPyStmtLines u (l + 1) s ++ [strRepeat u l ++ "),"])
        hblock p.statements)))
      (runsTo_pushLine "],"))))
    (runsTo_pushLine ")")
  refine runsTo_congr hcomp ?_
  intro u l
  simp [cdkPyLines, List.append_assoc]

/-- The CDK TypeScript converter on a fresh default buffer. -/
theorem cdkTs_buffer (p : Policy) (opts : Option ConverterOptions) :
    CdkTypescriptConverter.convert p (StringBuffer.new none none) opts
      = { buffer := cdkTsLines "  " 0
            (CdkTypescriptConverter.resolveVariableName opts) p.statements,
          indentLevel := 0, indentBy := "  ", lineSeparator := "\n" } := by
  have h := cdkTsConvert_runs p opts (StringBuffer.new none none) (by simp [StringBuffer.new])
  refine Eq.trans h ?_
  simp [StringBuffer.new]

/-- The CDK Python converter on a fresh default buffer. -/
theorem cdkPy_buffer (p : Policy) :
    CdkPythonConverter.convert p (StringBuffer.new none none)
      = { buffer := cdkPyLines "  " 0 p.statements,
          indentLevel := 0, indentBy := "  ", lineSeparator := "\n" } := by
  have h := cdkPyConvert_runs p (StringBuffer.new none none) (by simp [StringBuffer.new])
  rw [h]
  simp [StringBuffer.new]

/-! ## Character-level facts for the CDK outputs -/

theorem strRepeat_add (s : String) (a b : Nat) :
    strRepeat s (a + b) = strRepeat s a ++ strRepeat s b := by
  induction a with
  | zero => simp
  | succ a ih =>
      rw [Nat.add_right_comm, strRepeat_succ, ih, strRepeat_succ, String.append_assoc]

theorem strRepeat_split (j k : Nat) (h : j ≤ k) :
    strRepeat "  " k = strRepeat "  " j ++ strRepeat "  " (k - j) := by
  obtain ⟨m, rfl⟩ : ∃ m, k = j + m := ⟨k - j, by omega⟩
  rw [strRepeat_add]
  simp

theorem deep_line_getElem4 (k : Nat) (hk : 3 ≤ k) (r : String) :
    ((strRepeat "  " k ++ r).data)[4]? = some ' ' := by
  rw [strRepeat_split 3 k hk, String.append_assoc,
    getElem_concrete_append _ _ 4 (by decide)]
  decide

theorem deep_line_getElem6 (k : Nat) (hk : 4 ≤ k) (r : String) :
    ((strRepeat "  " k ++ r).data)[6]? = some ' ' := by
  rw [strRepeat_split 4 k hk, String.append_assoc,
    getElem_concrete_append _ _ 6 (by decide)]
  decide

theorem lvl3_getElem6 (t : String) :
    ((strRepeat "  " 3 ++ t).data)[6]? = t.data[0]? := by
  rw [String.data_append, List.getElem?_append_right (by decide)]
  have h6 : (strRepeat "  " 3).data.length = 6 := by decide
  rw [h6]

theorem getElem0_left (a b : String) (h : 0 < a.data.length) :
    ((a ++ b).data)[0]? = a.data[0]? :=
  getElem_concrete_append a b 0 h

theorem countP_zero_of_char6 (P : String) (hP : P.data[6]? = some 'e')
    (h6 : 6 < P.data.length) (L : List String)
    (h : ∀ line ∈ L, line.data[6]? ≠ some 'e') :
    L.countP (fun line => decide (P.data <+: line.data)) = 0 := by
  rw [List.countP_eq_zero]
  intro a ha
  simp only [decide_eq_true_eq]
  refine not_dataPrefix_of_getElem P a 6 h6 ?_
  rw [hP]
  exact fun hh => h a ha hh.symm

theorem getElem0_two (a b c : String) (h : 0 < a.data.length) :
    (((a ++ b) ++ c).data)[0]? = a.data[0]? := by
  rw [getElem0_left _ _ (by rw [String.data_append, List.length_append]; omega),
    getElem0_left a b h]

/-- A line of a CDK statement body: indentation depth at least three units, and
a line at exactly depth three starts with a content character other than `e`. -/
def Ln3Ok (line : String) : Prop :=
  ∃ k r, 3 ≤ k ∧ line = strRepeat "  " k ++ r ∧ (k = 3 → r.data[0]? ≠ some 'e')

theorem Ln3Ok.char6 {line : String} (h : Ln3Ok line) : line.data[6]? ≠ some 'e' := by
  obtain ⟨k, r, hk, rfl, h3⟩ := h
  rcases Nat.lt_or_ge k 4 with h4 | h4
  · have hk3 : k = 3 := by omega
    subst hk3
    rw [lvl3_getElem6]
    exact h3 rfl
  · rw [deep_line_getElem6 k h4]
    decide

theorem Ln3Ok.shape {line : String} (h : Ln3Ok line) : ShapeGe "  " 3 line := by
  obtain ⟨k, r, hk, hl, _⟩ := h
  exact ⟨k, r, hk, hl⟩

theorem ln3Ok_deep (k : Nat) (hk : 4 ≤ k) (r : String) : Ln3Ok (strRepeat "  " k ++ r) :=
  ⟨k, r, by omega, rfl, by omega⟩

theorem ln3Ok_at3 (r : String) (hr : r.data[0]? ≠ some 'e') :
    Ln3Ok (strRepeat "  " 3 ++ r) :=
  ⟨3, r, le_refl _, rfl, fun _ => hr⟩

theorem ln3_cdkTsArray (vals : List String) :
    ∀ line ∈ cdkTsArray "  " 4 vals, Ln3Ok line := by
  unfold cdkTsArray
  exact forall_mem_mapped (fun iv _ => ln3Ok_deep 4 (le_refl _) _)

theorem ln3_cdkAlways (k : Nat) (hk : 4 ≤ k) (vals : List String) :
    ∀ line ∈ cdkAlways "  " k vals, Ln3Ok line := by
  unfold cdkAlways
  exact forall_mem_mapped (fun v _ => ln3Ok_deep k hk _)

theorem ln3_cdkTsActions (prop : String) (as : List String)
    (h0 : 0 < prop.data.length) (hp : prop.data[0]? ≠ some 'e') :
    ∀ line ∈ cdkTsActionsLines "  " 3 prop as, Ln3Ok line := by
  unfold cdkTsActionsLines
  by_cases hc : as.isEmpty = true
  · simp [hc]
  · rw [if_neg hc]
    refine List.forall_mem_append.mpr ⟨List.forall_mem_append.mpr ⟨?_, ?_⟩, ?_⟩
    · exact List.forall_mem_singleton.mpr
        (ln3Ok_at3 _ (by rw [getElem0_left _ _ h0]; exact hp))
    · exact ln3_cdkTsArray as
    · exact List.forall_mem_singleton.mpr (ln3Ok_at3 "]," (by decide))

theorem ln3_cdkTsResources (prop : String) (rs : List String)
    (h0 : 0 < prop.data.length) (hp : prop.data[0]? ≠ some 'e') :
    ∀ line ∈ cdkTsResourcesLines "  " 3 prop rs, Ln3Ok line := by
  unfold cdkTsResourcesLines
  by_cases hc : rs.isEmpty = true
  · simp [hc]
  · rw [if_neg hc]
    refine List.forall_mem_append.mpr ⟨List.forall_mem_append.mpr ⟨?_, ?_⟩, ?_⟩
    · exact List.forall_mem_singleton.mpr
        (ln3Ok_at3 _ (by rw [getElem0_left _ _ h0]; exact hp))
    · exact ln3_cdkAlways 4 (le_refl _) rs
    · exact List.forall_mem_singleton.mpr (ln3Ok_at3 "]," (by decide))

theorem ln3_cdkTsPrincipals (prop : String) (wild : Bool) (ps : List Principal)
    (h0 : 0 < prop.data.length) (hp : prop.data[0]? ≠ some 'e') :
    ∀ line ∈ cdkTsPrincipalsLines "  " 3 prop wild ps, Ln3Ok line := by
  unfold cdkTsPrincipalsLines
  cases wild with
  | true =>
      intro line hl
      simp at hl
      subst hl
      exact ln3Ok_at3 _ (by rw [getElem0_left _ _ h0]; exact hp)
  | false =>
      rw [if_neg (by simp)]
      by_cases hc : ps.isEmpty = true
      · simp [hc]
      · rw [if_neg hc]
        refine List.forall_mem_append.mpr ⟨List.forall_mem_append.mpr ⟨?_, ?_⟩, ?_⟩
        · exact List.forall_mem_singleton.mpr
            (ln3Ok_at3 _ (by rw [getElem0_left _ _ h0]; exact hp))
        · exact forall_mem_mapped (fun p _ => ln3Ok_deep 4 (le_refl _) _)
        · exact List.forall_mem_singleton.mpr (ln3Ok_at3 "]," (by decide))

theorem ln3_cdkCondEntry (k : Nat) (hk : 4 ≤ k) (kv : String × StrOrList) :
    ∀ line ∈ cdkCondEntryLines "  " k kv, Ln3Ok line := by
  unfold cdkCondEntryLines
  rcases kv with ⟨key, v | vs⟩
  · exact List.forall_mem_singleton.mpr (ln3Ok_deep k hk _)
  · refine List.forall_mem_append.mpr ⟨List.forall_mem_append.mpr ⟨?_, ?_⟩, ?_⟩
    · exact List.forall_mem_singleton.mpr (ln3Ok_deep k hk _)
    · exact ln3_cdkAlways (k + 1) (by omega) vs
    · exact List.forall_mem_singleton.mpr (ln3Ok_deep k hk _)

theorem ln3_cdkTsConditions (conds : List Condition) :
    ∀ line ∈ cdkTsConditionsLines "  " 3 conds, Ln3Ok line := by
  unfold cdkTsConditionsLines
  by_cases hc : conds.isEmpty = true
  · simp [hc]
  · rw [if_neg hc]
    refine List.forall_mem_append.mpr ⟨List.forall_mem_append.mpr ⟨?_, ?_⟩, ?_⟩
    · exact List.forall_mem_singleton.mpr (ln3Ok_at3 _ (by decide))
    · refine forall_mem_flattened (forall_mem_mapped (fun opE _ => ?_))
      refine List.forall_mem_append.mpr ⟨List.forall_mem_append.mpr ⟨?_, ?_⟩, ?_⟩
      · exact List.forall_mem_singleton.mpr (ln3Ok_deep 4 (le_refl _) _)
      · exact forall_mem_flattened
          (forall_mem_mapped (fun kv _ => ln3_cdkCondEntry 5 (by omega) kv))
      · exact List.forall_mem_singleton.mpr (ln3Ok_deep 4 (le_refl _) _)
    · exact List.forall_mem_singleton.mpr (ln3Ok_at3 "\x7d," (by decide))

theorem ln3_cdkPyField (prop : String) (vs : List String)
    (h0 : 0 < prop.data.length) (hp : prop.data[0]? ≠ some 'e') :
    ∀ line ∈ cdkPyFieldLines "  " 3 prop vs, Ln3Ok line := by
  unfold cdkPyFieldLines
  by_cases hc : vs.isEmpty = true
  · simp [hc]
  · rw [if_neg hc]
    refine List.forall_mem_append.mpr ⟨List.forall_mem_append.mpr ⟨?_, ?_⟩, ?_⟩
    · exact List.forall_mem_singleton.mpr
        (ln3Ok_at3 _ (by rw [getElem0_left _ _ h0]; exact hp))
    · exact ln3_cdkAlways 4 (le_refl _) vs
    · exact List.forall_mem_singleton.mpr (ln3Ok_at3 "]," (by decide))

theorem ln3_cdkPyPrincipals (prop : String) (wild : Bool) (ps : List Principal)
    (h0 : 0 < prop.data.length) (hp : prop.data[0]? ≠ some 'e') :
    ∀ line ∈ cdkPyPrincipalsLines "  " 3 prop wild ps, Ln3Ok line := by
  unfold cdkPyPrincipalsLines
  cases wild with
  | true =>
      intro line hl
      simp at hl
      subst hl
      exact ln3Ok_at3 _ (by rw [getElem0_left _ _ h0]; exact hp)
  | false =>
      rw [if_neg (by simp)]
      by_cases hc : ps.isEmpty = true
      · simp [hc]
      · rw [if_neg hc]
        refine List.forall_mem_append.mpr ⟨List.forall_mem_append.mpr ⟨?_, ?_⟩, ?_⟩
        · exact List.forall_mem_singleton.mpr
            (ln3Ok_at3 _ (by rw [getElem0_left _ _ h0]; exact hp))
        · exact forall_mem_mapped (fun p _ => ln3Ok_deep 4 (le_refl _) _)
        · exact List.forall_mem_singleton.mpr (ln3Ok_at3 "]," (by decide))

theorem ln3_cdkPyConditions (conds : List Condition) :
    ∀ line ∈ cdkPyConditionsLines "  " 3 conds, Ln3Ok line := by
  unfold cdkPyConditionsLines
  by_cases hc : conds.isEmpty = true
  · simp [hc]
  · rw [if_neg hc]
    refine List.forall_mem_append.mpr ⟨List.forall_mem_append.mpr ⟨?_, ?_⟩, ?_⟩
    · exact List.forall_mem_singleton.mpr (ln3Ok_at3 _ (by decide))
    · refine forall_mem_flattened (forall_mem_mapped (fun opE _ => ?_))
      refine List.forall_mem_append.mpr ⟨List.forall_mem_append.mpr ⟨?_, ?_⟩, ?_⟩
      · exact List.forall_mem_singleton.mpr (ln3Ok_deep 4 (le_refl _) _)
      · exact forall_mem_flattened
          (forall_mem_mapped (fun kv _ => ln3_cdkCondEntry 5 (by omega) kv))
      · exact List.forall_mem_singleton.mpr (ln3Ok_deep 4 (le_refl _) _)
    · exact List.forall_mem_singleton.mpr (ln3Ok_at3 "\x7d," (by decide))

theorem ln3_ts_sid (s : Statement) :
    ∀ line ∈ (match s.sid with
      | some sd => if sd ≠ "" then [strRepeat "  " 3 ++ ("sid: \"" ++ sd ++ "\",")] else []
      | none => ([] : List String)), Ln3Ok line := by
  rcases hs : s.sid with _ | sd
  · simp
  · by_cases hd : sd = ""
    · simp [hd]
    · intro line hl
      simp [hd] at hl
      subst hl
      exact ln3Ok_at3 _ (by rw [getElem0_two _ _ _ (by decide)]; decide)

theorem ln3_py_sid (s : Statement) :
    ∀ line ∈ (match s.sid with
      | some sd => if sd ≠ "" then [strRepeat "  " 3 ++ ("sid=\"" ++ sd ++ "\",")] else []
      | none => ([] : List String)), Ln3Ok line := by
  rcases hs : s.sid with _ | sd
  · simp
  · by_cases hd : sd = ""
    · simp [hd]
    · intro line hl
      simp [hd] at hl
      subst hl
      exact ln3Ok_at3 _ (by rw [getElem0_two _ _ _ (by decide)]; decide)

theorem ln3_ts_actSeg (s : Statement) :
    ∀ line ∈ (if s.isActionStatement then cdkTsActionsLines "  " 3 "actions" s.actions
        else if s.isNotActionStatement then
          cdkTsActionsLines "  " 3 "notActions" s.notActions
        else []), Ln3Ok line := by
  by_cases h1 : s.isActionStatement = true
  · rw [if_pos h1]
    exact ln3_cdkTsActions "actions" s.actions (by decide) (by decide)
  · rw [if_neg h1]
    by_cases h2 : s.isNotActionStatement = true
    · rw [if_pos h2]
      exact ln3_cdkTsActions "notActions" s.notActions (by decide) (by decide)
    · rw [if_neg h2]
      simp

theorem ln3_ts_resSeg (s : Statement) :
    ∀ line ∈ (if s.isResourceStatement then
          cdkTsResourcesLines "  " 3 "resources" s.resources
        else if s.isNotResourceStatement then
          cdkTsResourcesLines "  " 3 "notResources" s.notResources
        else []), Ln3Ok line := by
  by_cases h1 : s.isResourceStatement = true
  · rw [if_pos h1]
    exact ln3_cdkTsResources "resources" s.resources (by decide) (by decide)
  · rw [if_neg h1]
    by_cases h2 : s.isNotResourceStatement = true
    · rw [if_pos h2]
      exact ln3_cdkTsResources "notResources" s.notResources (by decide) (by decide)
    · rw [if_neg h2]
      simp

theorem ln3_ts_prinSeg (s : Statement) :
    ∀ line ∈ (if s.isPrincipalStatement then
          cdkTsPrincipalsLines "  " 3 "principals" s.hasSingleWildcardPrincipal s.principals
        else if s.isNotPrincipalStatement then
          cdkTsPrincipalsLines "  " 3 "notPrincipals" s.hasSingleWildcardNotPrincipal
            s.notPrincipals
        else []), Ln3Ok line := by
  by_cases h1 : s.isPrincipalStatement = true
  · rw [if_pos h1]
    exact ln3_cdkTsPrincipals "principals" _ s.principals (by decide) (by decide)
  · rw [if_neg h1]
    by_cases h2 : s.isNotPrincipalStatement = true
    · rw [if_pos h2]
      exact ln3_cdkTsPrincipals "notPrincipals" _ s.notPrincipals (by decide) (by decide)
    · rw [if_neg h2]
      simp

theorem ln3_py_actSeg (s : Statement) :
    ∀ line ∈ (if s.isActionStatement then cdkPyFieldLines "  " 3 "actions" s.actions
        else if s.isNotActionStatement then
          cdkPyFieldLines "  " 3 "not_actions" s.notActions
        else []), Ln3Ok line := by
  by_cases h1 : s.isActionStatement = true
  · rw [if_pos h1]
    exact ln3_cdkPyField "actions" s.actions (by decide) (by decide)
  · rw [if_neg h1]
    by_cases h2 : s.isNotActionStatement = true
    · rw [if_pos h2]
      exact ln3_cdkPyField "not_actions" s.notActions (by decide) (by decide)
    · rw [if_neg h2]
      simp

theorem ln3_py_resSeg (s : Statement) :
    ∀ line ∈ (if s.isResourceStatement then cdkPyFieldLines "  " 3 "resources" s.resources
        else if s.isNotResourceStatement then
          cdkPyFieldLines "  " 3 "not_resources" s.notResources
        else []), Ln3Ok line := by
  by_cases h1 : s.isResourceStatement = true
  · rw [if_pos h1]
    exact ln3_cdkPyField "resources" s.resources (by decide) (by decide)
  · rw [if_neg h1]
    by_cases h2 : s.isNotResourceStatement = true
    · rw [if_pos h2]
      exact ln3_cdkPyField "not_resources" s.notResources (by decide) (by decide)
    · rw [if_neg h2]
      simp

theorem ln3_py_prinSeg (s : Statement) :
    ∀ line ∈ (if s.isPrincipalStatement then
          cdkPyPrincipalsLines "  " 3 "principals" s.hasSingleWildcardPrincipal s.principals
        else if s.isNotPrincipalStatement then
          cdkPyPrincipalsLines "  " 3 "not_principals" s.hasSingleWildcardNotPrincipal
            s.notPrincipals
        else []), Ln3Ok line := by
  by_cases h1 : s.isPrincipalStatement = true
  · rw [if_pos h1]
    exact ln3_cdkPyPrincipals "principals" _ s.principals (by decide) (by decide)
  · rw [if_neg h1]
    by_cases h2 : s.isNotPrincipalStatement = true
    · rw [if_pos h2]
      exact ln3_cdkPyPrincipals "not_principals" _ s.notPrincipals (by decide) (by decide)
    · rw [if_neg h2]
      simp

theorem cdkTsStmtLines_countP_eff (s : Statement) :
    (cdkTsStmtLines "  " 3 s).countP
      (fun line => decide (("      effect: iam.Effect.").data <+: line.data))
      = if s.effect.isSome then 1 else 0 := by
  unfold cdkTsStmtLines
  rw [List.countP_append, List.countP_append, List.countP_append, List.countP_append,
    List.countP_append]
  have hz := fun (L : List String) (h : ∀ line ∈ L, line.data[6]? ≠ some 'e') =>
    countP_zero_of_char6 "      effect: iam.Effect." (by decide) (by decide) L h
  rw [hz _ (fun line hl => (ln3_ts_sid s line hl).char6),
    hz _ (fun line hl => (ln3_ts_actSeg s line hl).char6),
    hz _ (fun line hl => (ln3_ts_resSeg s line hl).char6),
    hz _ (fun line hl => (ln3_ts_prinSeg s line hl).char6),
    hz _ (fun line hl => (ln3_cdkTsConditions s.conditions line hl).char6)]
  by_cases he : s.effect.isSome = true
  · rw [if_pos he, if_pos he]
    have hline : ("      effect: iam.Effect.").data
        <+: (strRepeat "  " 3 ++ ("effect: iam.Effect."
          ++ (if s.isDeny then "DENY" else "ALLOW") ++ ",")).data := by
      refine ⟨((if s.isDeny then "DENY" else "ALLOW") ++ ",").data, ?_⟩
      rcases Bool.eq_false_or_eq_true s.isDeny with hd | hd
      · rw [hd]
        decide
      · rw [hd]
        decide
    have hcount : List.countP
        (fun line => decide (("      effect: iam.Effect.").data <+: line.data))
        [strRepeat "  " 3 ++ ("effect: iam.Effect."
          ++ (if s.isDeny then "DENY" else "ALLOW") ++ ",")] = 1 := by
      have hdec := decide_eq_true hline
      rw [List.countP_cons, List.countP_nil]
      simp only [hdec]
      simp
    rw [hcount]
  · rw [if_neg he, if_neg he]
    simp

theorem cdkPyStmtLines_countP_eff (s : Statement) :
    (cdkPyStmtLines "  " 3 s).countP
      (fun line => decide (("      effect=").data <+: line.data))
      = if s.effect = some Effect.deny then 1 else 0 := by
  unfold cdkPyStmtLines
  rw [List.countP_append, List.countP_append, List.countP_append, List.countP_append,
    List.countP_append]
  have hz := fun (L : List String) (h : ∀ line ∈ L, line.data[6]? ≠ some 'e') =>
    countP_zero_of_char6 "      effect=" (by decide) (by decide) L h
  rw [hz _ (fun line hl => (ln3_py_sid s line hl).char6),
    hz _ (fun line hl => (ln3_py_actSeg s line hl).char6),
    hz _ (fun line hl => (ln3_py_resSeg s line hl).char6),
    hz _ (fun line hl => (ln3_py_prinSeg s line hl).char6),
    hz _ (fun line hl => (ln3_cdkPyConditions s.conditions line hl).char6)]
  rcases he : s.effect with _ | eff
  · simp [Statement.isAllow, he]
  · cases eff
    · simp [Statement.isAllow, he]
    · simp [Statement.isAllow, he, List.countP_cons]
      decide

theorem cdkTsStmtLines_shape (s : Statement) :
    ∀ line ∈ cdkTsStmtLines "  " 3 s, ShapeGe "  " 3 line := by
  unfold cdkTsStmtLines
  refine List.forall_mem_append.mpr ⟨List.forall_mem_append.mpr
    ⟨List.forall_mem_append.mpr ⟨List.forall_mem_append.mpr
      ⟨List.forall_mem_append.mpr ⟨?_, ?_⟩, ?_⟩, ?_⟩, ?_⟩, ?_⟩
  · exact fun line hl => (ln3_ts_sid s line hl).shape
  · by_cases he : s.effect.isSome = true
    · rw [if_pos he]
      exact List.forall_mem_singleton.mpr (shapeGe_self _ _ _)
    · rw [if_neg he]
      simp
  · exact fun line hl => (ln3_ts_actSeg s line hl).shape
  · exact fun line hl => (ln3_ts_resSeg s line hl).shape
  · exact fun line hl => (ln3_ts_prinSeg s line hl).shape
  · exact fun line hl => (ln3_cdkTsConditions s.conditions line hl).shape

theorem cdkPyStmtLines_shape (s : Statement) :
    ∀ line ∈ cdkPyStmtLines "  " 3 s, ShapeGe "  " 3 line := by
  unfold cdkPyStmtLines
  refine List.forall_mem_append.mpr ⟨List.forall_mem_append.mpr
    ⟨List.forall_mem_append.mpr ⟨List.forall_mem_append.mpr
      ⟨List.forall_mem_append.mpr ⟨?_, ?_⟩, ?_⟩, ?_⟩, ?_⟩, ?_⟩
  · exact fun line hl => (ln3_py_sid s line hl).shape
  · by_cases he : s.effect.isSome = true ∧ ¬ s.isAllow = true
    · rw [if_pos he]
      exact List.forall_mem_singleton.mpr (shapeGe_self _ _ _)
    · rw [if_neg he]
      simp
  · exact fun line hl => (ln3_py_actSeg s line hl).shape
  · exact fun line hl => (ln3_py_resSeg s line hl).shape
  · exact fun line hl => (ln3_py_prinSeg s line hl).shape
  · exact fun line hl => (ln3_cdkPyConditions s.conditions line hl).shape

theorem shapeGe3_getElem4 (line : String) (h : ShapeGe "  " 3 line) :
    line.data[4]? = some ' ' := by
  obtain ⟨k, r, hk, rfl⟩ := h
  exact deep_line_getElem4 k hk r

theorem cdkTsLines_single_parts (vn : String) (s : Statement) :
    cdkTsLines "  " 0 vn [s]
      = [strRepeat "  " 0 ++ ("const " ++ vn ++ " = new iam.PolicyDocument(\x7b"),
         strRepeat "  " 1 ++ "statements: ["]
        ++ ([strRepeat "  " 2 ++ "new iam.PolicyStatement(\x7b"]
            ++ cdkTsStmtLines "  " 3 s ++ [strRepeat "  " 2 ++ "\x7d)"])
        ++ [strRepeat "  " 1 ++ "]", strRepeat "  " 0 ++ "\x7d);"] := by
  simp [cdkTsLines, List.enum, List.enumFrom]

theorem cdkPyLines_single_parts (s : Statement) :
    cdkPyLines "  " 0 [s]
      = [strRepeat "  " 0 ++ "policy_document = iam.PolicyDocument(",
         strRepeat "  " 1 ++ "statements=["]
        ++ ([strRepeat "  " 2 ++ "iam.PolicyStatement("]
            ++ cdkPyStmtLines "  " 3 s ++ [strRepeat "  " 2 ++ "),"])
        ++ [strRepeat "  " 1 ++ "],", strRepeat "  " 0 ++ ")"] := by
  simp [cdkPyLines, List.append_assoc]

theorem eff_mem_cdkTsStmtLines (s : Statement) (he : s.effect.isSome = true) :
    strRepeat "  " 3 ++ ("effect: iam.Effect."
        ++ (if s.isDeny then "DENY" else "ALLOW") ++ ",")
      ∈ cdkTsStmtLines "  " 3 s := by
  unfold cdkTsStmtLines
  refine List.mem_append.mpr (Or.inl ?_)
  refine List.mem_append.mpr (Or.inl ?_)
  refine List.mem_append.mpr (Or.inl ?_)
  refine List.mem_append.mpr (Or.inl ?_)
  refine List.mem_append.mpr (Or.inr ?_)
  rw [if_pos he]
  exact List.mem_singleton.mpr rfl

theorem eff_mem_cdkPyStmtLines (s : Statement) (he : s.effect = some Effect.deny) :
    strRepeat "  " 3 ++ "effect=Effect.DENY," ∈ cdkPyStmtLines "  " 3 s := by
  unfold cdkPyStmtLines
  refine List.mem_append.mpr (Or.inl ?_)
  refine List.mem_append.mpr (Or.inl ?_)
  refine List.mem_append.mpr (Or.inl ?_)
  refine List.mem_append.mpr (Or.inl ?_)
  refine List.mem_append.mpr (Or.inr ?_)
  rw [if_pos ⟨by rw [he]; rfl, by simp [Statement.isAllow, he]⟩]
  exact List.mem_singleton.mpr rfl

/-- C3 (amended): for a single-statement policy, the cdk-ts renderer emits
exactly one `effect: iam.Effect.*` field line iff the statement carries an
explicit effect, using constant DENY for an explicit Deny and ALLOW
otherwise; the cdk-py renderer emits exactly one `effect=` field line iff
the explicit effect is Deny (an explicit Allow is silently omitted), and
that line is `effect=Effect.DENY,`. -/
theorem cdk_effect_field (s : Statement) :
    ((CdkTypescriptConverter.convert { statements := [s] }
        (StringBuffer.new none none) none).buffer.countP
      (fun line => decide (("      effect: iam.Effect.").data <+: line.data))
      = if s.effect.isSome then 1 else 0)
    ∧ (s.effect.isSome = true →
        "      effect: iam.Effect." ++ ((if s.isDeny then "DENY" else "ALLOW") ++ ",")
          ∈ (CdkTypescriptConverter.convert { statements := [s] }
              (StringBuffer.new none none) none).buffer)
    ∧ ((CdkPythonConverter.convert { statements := [s] }
        (StringBuffer.new none none)).buffer.countP
      (fun line => decide (("      effect=").data <+: line.data))
      = if s.effect = some Effect.deny then 1 else 0)
    ∧ (s.effect = some Effect.deny →
        "      effect=Effect.DENY,"
          ∈ (CdkPythonConverter.convert { statements := [s] }
              (StringBuffer.new none none)).buffer) := by
  refine ⟨?_, ?_, ?_, ?_⟩
  · simp only [cdkTs_buffer]
    rw [cdkTsLines_single_parts]
    rw [List.countP_append, List.countP_append, List.countP_append, List.countP_append]
    rw [cdkTsStmtLines_countP_eff]
    have hA : List.countP
        (fun line => decide (("      effect: iam.Effect.").data <+: line.data))
        [strRepeat "  " 0 ++ ("const " ++ CdkTypescriptConverter.resolveVariableName none
            ++ " = new iam.PolicyDocument(\x7b"),
         strRepeat "  " 1 ++ "statements: ["] = 0 := by decide
    have hB1 : List.countP
        (fun line => decide (("      effect: iam.Effect.").data <+: line.data))
        [strRepeat "  " 2 ++ "new iam.PolicyStatement(\x7b"] = 0 := by decide
    have hB2 : List.countP
        (fun line => decide (("      effect: iam.Effect.").data <+: line.data))
        [strRepeat "  " 2 ++ "\x7d)"] = 0 := by decide
    have hC : List.countP
        (fun line => decide (("      effect: iam.Effect.").data <+: line.data))
        [strRepeat "  " 1 ++ "]", strRepeat "  " 0 ++ "\x7d);"] = 0 := by decide
    rw [hA, hB1, hB2, hC]
    simp
  · intro he
    have hbr : "      effect: iam.Effect." ++ ((if s.isDeny then "DENY" else "ALLOW") ++ ",")
        = strRepeat "  " 3 ++ ("effect: iam.Effect."
            ++ (if s.isDeny then "DENY" else "ALLOW") ++ ",") := by
      rcases Bool.eq_false_or_eq_true s.isDeny with hd | hd <;> rw [hd] <;> decide
    rw [hbr]
    simp only [cdkTs_buffer]
    rw [cdkTsLines_single_parts]
    refine List.mem_append.mpr (Or.inl (List.mem_append.mpr (Or.inr ?_)))
    refine List.mem_append.mpr (Or.inl (List.mem_append.mpr (Or.inr ?_)))
    exact eff_mem_cdkTsStmtLines s he
  · simp only [cdkPy_buffer]
    rw [cdkPyLines_single_parts]
    rw [List.countP_append, List.countP_append, List.countP_append, List.countP_append]
    rw [cdkPyStmtLines_countP_eff]
    have hA : List.countP
        (fun line => decide (("      effect=").data <+: line.data))
        [strRepeat "  " 0 ++ "policy_document = iam.PolicyDocument(",
         strRepeat "  " 1 ++ "statements=["] = 0 := by decide
    have hB1 : List.countP
        (fun line => decide (("      effect=").data <+: line.data))
        [strRepeat "  " 2 ++ "iam.PolicyStatement("] = 0 := by decide
    have hB2 : List.countP
        (fun line => decide (("      effect=").data <+: line.data))
        [strRepeat "  " 2 ++ "),"] = 0 := by decide
    have hC : List.countP
        (fun line => decide (("      effect=").data <+: line.data))
        [strRepeat "  " 1 ++ "],", strRepeat "  " 0 ++ ")"] = 0 := by decide
    rw [hA, hB1, hB2, hC]
    simp
  · intro he
    have hbr : "      effect=Effect.DENY," = strRepeat "  " 3 ++ "effect=Effect.DENY," := by
      decide
    rw [hbr]
    simp only [cdkPy_buffer]
    rw [cdkPyLines_single_parts]
    refine List.mem_append.mpr (Or.inl (List.mem_append.mpr (Or.inr ?_)))
    refine List.mem_append.mpr (Or.inl (List.mem_append.mpr (Or.inr ?_)))
    exact eff_mem_cdkPyStmtLines s he

/-- C3 witness: at a statement with explicit Deny both renderers emit their
effect line; the theorem's two implications are discharged at this input. -/
theorem cdk_effect_field_witness :
    "      effect: iam.Effect."
        ++ ((if ({ effect := some Effect.deny } : Statement).isDeny then "DENY" else "ALLOW")
            ++ ",")
      ∈ (CdkTypescriptConverter.convert { statements := [{ effect := some Effect.deny }] }
          (StringBuffer.new none none) none).buffer
    ∧ "      effect=Effect.DENY,"
      ∈ (CdkPythonConverter.convert { statements := [{ effect := some Effect.deny }] }
          (StringBuffer.new none none)).buffer :=
  ⟨(cdk_effect_field { effect := some Effect.deny }).2.1 rfl,
   (cdk_effect_field { effect := some Effect.deny }).2.2.2 rfl⟩

/-- C3 counterexample: a statement with the explicit effect Allow renders
under cdk-py with no effect line at all, refuting the claim for cdk-py. -/
theorem cdk_py_effect_allow_counterexample :
    ({ effect := some Effect.allow } : Statement).effect.isSome = true
    ∧ (CdkPythonConverter.convert { statements := [{ effect := some Effect.allow }] }
        (StringBuffer.new none none)).buffer
      = ["policy_document = iam.PolicyDocument(", "  statements=[",
         "    iam.PolicyStatement(", "    ),", "  ],", ")"]
    ∧ (CdkPythonConverter.convert { statements := [{ effect := some Effect.allow }] }
        (StringBuffer.new none none)).buffer.countP
        (fun line => decide (("      effect=").data <+: line.data)) = 0 :=
  ⟨rfl, by decide, by decide⟩

/-- Modelled from the spec: the claimed merge semantics for the condition
map — every entry sharing operator and key accumulates its values, in
original order, before rendering. -/
def specCondAccum (conds : List Condition) :
    List (String × List (String × List String)) :=
  conds.foldl (fun m c =>
    let m := if (lookupList m c.operation).isSome then m else m ++ [(c.operation, [])]
    let inner := (lookupList m c.operation).getD []
    let inner2 :=
      match lookupList inner c.conditionKey with
      | none => inner ++ [(c.conditionKey, c.conditionValues)]
      | some vs => setKey inner c.conditionKey (vs ++ c.conditionValues)
    setKey m c.operation inner2) []

/-- Modelled from the spec: after accumulation, exactly one value renders
as a bare scalar and more than one as a list in original order. -/
def specConditionMap (conds : List Condition) :
    List (String × List (String × StrOrList)) :=
  (specCondAccum conds).map (fun opE =>
    (opE.1, opE.2.map (fun kv =>
      (kv.1, match kv.2 with
        | [v] => Sum.inl v
        | vs => Sum.inr vs))))

/-- C4: the condition accumulation merges the claim's concrete instance
correctly, but the membership test is JavaScript truthiness
(`!conditionMap[op][key]`), so a stored empty-string scalar is treated as
absent and silently overwritten instead of merged: with entries
`("StringEquals","s3:x-amz-acl",[""])` then
`("StringEquals","s3:x-amz-acl",["public-read"])` the code keeps only the
scalar `"public-read"` while the specified merge accumulates both values;
the cdk-py rendering of that map shows the single scalar line. The
universally quantified merge claim is false of the code (a bug against
the code's own merge intent), though it holds on the claim's instance. -/
theorem condition_merge_falsy_overwrite :
    (buildConditionMap
        [{ operation := "StringEquals", conditionKey := "s3:x-amz-acl",
           conditionValues := ["public-read"] },
         { operation := "StringEquals", conditionKey := "s3:x-amz-acl",
           conditionValues := ["public-read-write"] }]
      = [("StringEquals",
          [("s3:x-amz-acl", Sum.inr ["public-read", "public-read-write"])])])
    ∧ (buildConditionMap
        [{ operation := "StringEquals", conditionKey := "s3:x-amz-acl",
           conditionValues := [""] },
         { operation := "StringEquals", conditionKey := "s3:x-amz-acl",
           conditionValues := ["public-read"] }]
      = [("StringEquals", [("s3:x-amz-acl", Sum.inl "public-read")])])
    ∧ (specConditionMap
        [{ operation := "StringEquals", conditionKey := "s3:x-amz-acl",
           conditionValues := [""] },
         { operation := "StringEquals", conditionKey := "s3:x-amz-acl",
           conditionValues := ["public-read"] }]
      = [("StringEquals", [("s3:x-amz-acl", Sum.inr ["", "public-read"])])])
    ∧ (buildConditionMap
        [{ operation := "StringEquals", conditionKey := "s3:x-amz-acl",
           conditionValues := [""] },
         { operation := "StringEquals", conditionKey := "s3:x-amz-acl",
           conditionValues := ["public-read"] }]
      ≠ specConditionMap
        [{ operation := "StringEquals", conditionKey := "s3:x-amz-acl",
           conditionValues := [""] },
         { operation := "StringEquals", conditionKey := "s3:x-amz-acl",
           conditionValues := ["public-read"] }])
    ∧ (cdkPyConditionsLines "  " 3
        [{ operation := "StringEquals", conditionKey := "s3:x-amz-acl",
           conditionValues := [""] },
         { operation := "StringEquals", conditionKey := "s3:x-amz-acl",
           conditionValues := ["public-read"] }]
      = ["      conditions=\x7b",
         "        \"StringEquals\": \x7b",
         "          \"s3:x-amz-acl\": \"public-read\",",
         "        \x7d,",
         "      \x7d,"]) :=
  ⟨by decide, by decide, by decide, by decide, by decide⟩

/-- C8 (amended): the cdk-ts renderer assigns the document to the
variableName from the options when one is supplied and non-empty, and to
the default identifier `policyDocument` otherwise; the cdk-py renderer
ignores the option entirely and always uses its hardcoded identifier
`policy_document`. -/
theorem cdk_variable_name (p : Policy) (opts : Option ConverterOptions) (n : String)
    (hn : n ≠ "") :
    ((CdkTypescriptConverter.convert p (StringBuffer.new none none) opts).buffer.head?
      = some (strRepeat "  " 0 ++ ("const " ++ CdkTypescriptConverter.resolveVariableName opts
          ++ " = new iam.PolicyDocument(\x7b")))
    ∧ CdkTypescriptConverter.resolveVariableName (some { variableName := some n }) = n
    ∧ CdkTypescriptConverter.resolveVariableName none = "policyDocument"
    ∧ CdkTypescriptConverter.resolveVariableName (some { variableName := none })
      = "policyDocument"
    ∧ CdkTypescriptConverter.resolveVariableName (some { variableName := some "" })
      = "policyDocument"
    ∧ (CdkPythonConverter.convert p (StringBuffer.new none none)).buffer.head?
      = some "policy_document = iam.PolicyDocument(" := by
  refine ⟨?_, ?_, rfl, rfl, rfl, ?_⟩
  · simp only [cdkTs_buffer]
    rw [cdkTsLines]
    simp
  · simp [CdkTypescriptConverter.resolveVariableName, hn]
  · simp only [cdkPy_buffer]
    rw [cdkPyLines]
    simp [strRepeat]

/-- C8 witness: with option variableName `myPolicy` the cdk-ts head line
uses `myPolicy` and the cdk-py head line stays `policy_document`. -/
theorem cdk_variable_name_witness :
    ((CdkTypescriptConverter.convert { statements := [] } (StringBuffer.new none none)
        (some { variableName := some "myPolicy" })).buffer.head?
      = some (strRepeat "  " 0 ++ ("const "
          ++ CdkTypescriptConverter.resolveVariableName (some { variableName := some "myPolicy" })
          ++ " = new iam.PolicyDocument(\x7b")))
    ∧ CdkTypescriptConverter.resolveVariableName (some { variableName := some "myPolicy" })
      = "myPolicy"
    ∧ CdkTypescriptConverter.resolveVariableName none = "policyDocument"
    ∧ CdkTypescriptConverter.resolveVariableName (some { variableName := none })
      = "policyDocument"
    ∧ CdkTypescriptConverter.resolveVariableName (some { variableName := some "" })
      = "policyDocument"
    ∧ (CdkPythonConverter.convert { statements := [] }
        (StringBuffer.new none none)).buffer.head?
      = some "policy_document = iam.PolicyDocument(" :=
  cdk_variable_name { statements := [] } (some { variableName := some "myPolicy" })
    "myPolicy" (by decide)

/-- C8 counterexample: through the dispatcher, a supplied variableName is
honoured by cdk-ts but never appears in the cdk-py output, whose text is
fixed to the `policy_document` identifier. -/
theorem cdk_py_variable_name_counterexample :
    convert { statements := [] } "cdk-py" (some { variableName := some "myPolicy" })
      = Except.ok "policy_document = iam.PolicyDocument(\n  statements=[\n  ],\n)"
    ∧ ¬ ("myPolicy".data
        <+: "policy_document = iam.PolicyDocument(\n  statements=[\n  ],\n)".data)
    ∧ convert { statements := [] } "cdk-ts" (some { variableName := some "myPolicy" })
      = Except.ok "const myPolicy = new iam.PolicyDocument(\x7b\n  statements: [\n  ]\n\x7d);" :=
  ⟨rfl, by decide, rfl⟩

/-- C1: for any format identifier outside the closed set tf / cf /
cdk-ts / cdk-py the dispatcher returns the Unsupported-Format error and
nothing else (no partial output), and for each identifier in the set it
runs the matching converter on a fresh buffer built from the merged
options and returns that buffer's joined text. -/
theorem convert_dispatch (p : Policy) (opts : Option ConvertOptions) (fmt : String)
    (h : fmt ∉ (["tf", "cf", "cdk-ts", "cdk-py"] : List String)) :
    convert p fmt opts = Except.error ("Unsupported format: " ++ fmt)
    ∧ convert p "tf" opts
      = Except.ok (TerraformConverter.convert p
          (freshBufferFor (mergeOptions opts))).render
    ∧ convert p "cf" opts
      = Except.ok (CloudFormationConverter.convert p
          (freshBufferFor (mergeOptions opts))).render
    ∧ convert p "cdk-ts" opts
      = Except.ok (CdkTypescriptConverter.convert p (freshBufferFor (mergeOptions opts))
          (some { variableName := (mergeOptions opts).variableName })).render
    ∧ convert p "cdk-py" opts
      = Except.ok (CdkPythonConverter.convert p
          (freshBufferFor (mergeOptions opts))).render := by
  refine ⟨?_, rfl, rfl, rfl, rfl⟩
  simp only [List.mem_cons, List.not_mem_nil, or_false, not_or] at h
  obtain ⟨h1, h2, h3, h4⟩ := h
  have hlook : lookupList converters fmt = none := by
    rw [converters, lookupList_cons, if_neg (fun he => h1 he.symm),
      lookupList_cons, if_neg (fun he => h2 he.symm),
      lookupList_cons, if_neg (fun he => h3 he.symm),
      lookupList_cons, if_neg (fun he => h4 he.symm)]
    rfl
  unfold convert
  rw [hlook]

/-- C1 witness: the identifier `yaml` is rejected with the error text,
and the four supported identifiers produce the converters' output. -/
theorem convert_dispatch_witness :
    convert { statements := [] } "yaml" none
      = Except.error ("Unsupported format: " ++ "yaml")
    ∧ convert { statements := [] } "tf" none
      = Except.ok (TerraformConverter.convert { statements := [] }
          (freshBufferFor (mergeOptions none))).render
    ∧ convert { statements := [] } "cf" none
      = Except.ok (CloudFormationConverter.convert { statements := [] }
          (freshBufferFor (mergeOptions none))).render
    ∧ convert { statements := [] } "cdk-ts" none
      = Except.ok (CdkTypescriptConverter.convert { statements := [] }
          (freshBufferFor (mergeOptions none))
          (some { variableName := (mergeOptions none).variableName })).render
    ∧ convert { statements := [] } "cdk-py" none
      = Except.ok (CdkPythonConverter.convert { statements := [] }
          (freshBufferFor (mergeOptions none))).render :=
  convert_dispatch { statements := [] } none "yaml" (by decide)

theorem closerNC_not_mem_ts (s : Statement) : "    \x7d)" ∉ cdkTsStmtLines "  " 3 s := by
  intro hmem
  have h4 := shapeGe3_getElem4 _ (cdkTsStmtLines_shape s _ hmem)
  revert h4
  decide

theorem closerC_not_mem_ts (s : Statement) : "    \x7d)," ∉ cdkTsStmtLines "  " 3 s := by
  intro hmem
  have h4 := shapeGe3_getElem4 _ (cdkTsStmtLines_shape s _ hmem)
  revert h4
  decide

theorem closerNC_not_mem_py (s : Statement) : "    )" ∉ cdkPyStmtLines "  " 3 s := by
  intro hmem
  have h4 := shapeGe3_getElem4 _ (cdkPyStmtLines_shape s _ hmem)
  revert h4
  decide

theorem closerC_not_mem_py (s : Statement) : "    )," ∉ cdkPyStmtLines "  " 3 s := by
  intro hmem
  have h4 := shapeGe3_getElem4 _ (cdkPyStmtLines_shape s _ hmem)
  revert h4
  decide

theorem blocks_facts_enum (blockF : Nat × Statement → List String) (cNC cC : String)
    (n : Nat)
    (hNC : ∀ i s, (blockF (i, s)).count cNC = if i = n - 1 then 1 else 0)
    (hC : ∀ i s, (blockF (i, s)).count cC = if i = n - 1 then 0 else 1)
    (hLast : ∀ s, ∃ pre, blockF (n - 1, s) = pre ++ [cNC]) :
    ∀ (ss : List Statement) (k : Nat), k + ss.length = n → ss ≠ [] →
      (((List.enumFrom k ss).map blockF).flatten.count cNC = 1)
      ∧ (((List.enumFrom k ss).map blockF).flatten.count cC = ss.length - 1)
      ∧ ∃ pre, ((List.enumFrom k ss).map blockF).flatten = pre ++ [cNC] := by
  intro ss
  induction ss with
  | nil =>
      intro k hkn hne
      cases hne rfl
  | cons s t ih =>
      intro k hkn hne
      have hflat : ((List.enumFrom k (s :: t)).map blockF).flatten
          = blockF (k, s) ++ ((List.enumFrom (k + 1) t).map blockF).flatten := by
        simp [List.enumFrom]
      rw [hflat]
      rcases ht : t with _ | ⟨s2, t2⟩
      · have hk1 : k = n - 1 := by
          subst ht
          simp at hkn
          omega
        subst hk1
        refine ⟨?_, ?_, ?_⟩
        · simp [List.count_append, hNC]
        · simp [List.count_append, hC]
        · obtain ⟨pre, hpre⟩ := hLast s
          exact ⟨pre, by simp [hpre]⟩
      · subst ht
        have hkn' : (k + 1) + (s2 :: t2).length = n := by
          simp at hkn ⊢
          omega
        obtain ⟨ih1, ih2, ih3⟩ := ih (k + 1) hkn' (by simp)
        have hkne : ¬ (k = n - 1) := by
          simp at hkn
          omega
        refine ⟨?_, ?_, ?_⟩
        · rw [List.count_append, hNC k s, if_neg hkne, ih1]
        · rw [List.count_append, hC k s, if_neg hkne, ih2]
          simp [List.length_cons]
          omega
        · obtain ⟨pre, hpre⟩ := ih3
          exact ⟨blockF (k, s) ++ pre, by rw [hpre, List.append_assoc]⟩

theorem blocks_facts_plain (blockF : Statement → List String) (cC cNC : String)
    (hC : ∀ s, (blockF s).count cC = 1)
    (hNC : ∀ s, (blockF s).count cNC = 0)
    (hLast : ∀ s, ∃ pre, blockF s = pre ++ [cC]) :
    ∀ (ss : List Statement),
      ((ss.map blockF).flatten.count cC = ss.length)
      ∧ ((ss.map blockF).flatten.count cNC = 0)
      ∧ (ss ≠ [] → ∃ pre, (ss.map blockF).flatten = pre ++ [cC]) := by
  intro ss
  induction ss with
  | nil => exact ⟨rfl, rfl, fun h => absurd rfl h⟩
  | cons s t ih =>
      obtain ⟨ih1, ih2, ih3⟩ := ih
      refine ⟨?_, ?_, ?_⟩
      · simp [List.count_append, hC, ih1]
        omega
      · simp [List.count_append, hNC, ih2]
      · intro hne
        rcases ht : t with _ | ⟨s2, t2⟩
        · obtain ⟨pre, hpre⟩ := hLast s
          subst ht
          exact ⟨pre, by simp [hpre]⟩
        · obtain ⟨pre, hpre⟩ := ih3 (by rw [ht]; simp)
          rw [ht] at hpre
          simp only [List.map_cons, List.flatten_cons] at hpre
          refine ⟨blockF s ++ pre, ?_⟩
          simp [hpre, List.append_assoc]

theorem cdkTsLines_parts (vn : String) (ss : List Statement) :
    cdkTsLines "  " 0 vn ss
      = [strRepeat "  " 0 ++ ("const " ++ vn ++ " = new iam.PolicyDocument(\x7b"),
         strRepeat "  " 1 ++ "statements: ["]
        ++ ((List.enumFrom 0 ss).map (fun ist =>
            [strRepeat "  " 2 ++ "new iam.PolicyStatement(\x7b"]
            ++ cdkTsStmtLines "  " 3 ist.2
            ++ (if ist.1 = ss.length - 1 then [strRepeat "  " 2 ++ "\x7d)"]
                else [strRepeat "  " 2 ++ "\x7d),"]))).flatten
        ++ [strRepeat "  " 1 ++ "]", strRepeat "  " 0 ++ "\x7d);"] := by
  simp [cdkTsLines, List.enum]

theorem cdkPyLines_parts (ss : List Statement) :
    cdkPyLines "  " 0 ss
      = [strRepeat "  " 0 ++ "policy_document = iam.PolicyDocument(",
         strRepeat "  " 1 ++ "statements=["]
        ++ (ss.map (fun s =>
            [strRepeat "  " 2 ++ "iam.PolicyStatement("]
            ++ cdkPyStmtLines "  " 3 s ++ [strRepeat "  " 2 ++ "),"])).flatten
        ++ [strRepeat "  " 1 ++ "],", strRepeat "  " 0 ++ ")"] := by
  simp [cdkPyLines]

theorem tsBlock_count_nc (m i : Nat) (s : Statement) :
    ([strRepeat "  " 2 ++ "new iam.PolicyStatement(\x7b"]
      ++ cdkTsStmtLines "  " 3 s
      ++ (if i = m then [strRepeat "  " 2 ++ "\x7d)"]
          else [strRepeat "  " 2 ++ "\x7d),"])).count "    \x7d)"
      = if i = m then 1 else 0 := by
  rw [List.count_append, List.count_append,
    List.count_eq_zero.mpr (closerNC_not_mem_ts s)]
  have hop : List.count "    \x7d)" [strRepeat "  " 2 ++ "new iam.PolicyStatement(\x7b"]
      = 0 := by decide
  rw [hop]
  by_cases hi : i = m
  · rw [if_pos hi, if_pos hi]
    decide
  · rw [if_neg hi, if_neg hi]
    decide

theorem tsBlock_count_c (m i : Nat) (s : Statement) :
    ([strRepeat "  " 2 ++ "new iam.PolicyStatement(\x7b"]
      ++ cdkTsStmtLines "  " 3 s
      ++ (if i = m then [strRepeat "  " 2 ++ "\x7d)"]
          else [strRepeat "  " 2 ++ "\x7d),"])).count "    \x7d),"
      = if i = m then 0 else 1 := by
  rw [List.count_append, List.count_append,
    List.count_eq_zero.mpr (closerC_not_mem_ts s)]
  have hop : List.count "    \x7d)," [strRepeat "  " 2 ++ "new iam.PolicyStatement(\x7b"]
      = 0 := by decide
  rw [hop]
  by_cases hi : i = m
  · rw [if_pos hi, if_pos hi]
    decide
  · rw [if_neg hi, if_neg hi]
    decide

theorem tsBlock_last (m : Nat) (s : Statement) :
    ∃ pre, ([strRepeat "  " 2 ++ "new iam.PolicyStatement(\x7b"]
      ++ cdkTsStmtLines "  " 3 s
      ++ (if m = m then [strRepeat "  " 2 ++ "\x7d)"]
          else [strRepeat "  " 2 ++ "\x7d),"])) = pre ++ ["    \x7d)"] := by
  refine ⟨[strRepeat "  " 2 ++ "new iam.PolicyStatement(\x7b"]
    ++ cdkTsStmtLines "  " 3 s, ?_⟩
  have hcl : [strRepeat "  " 2 ++ "\x7d)"] = ["    \x7d)"] := by decide
  rw [if_pos rfl, hcl, List.append_assoc]

theorem pyBlock_count_c (s : Statement) :
    ([strRepeat "  " 2 ++ "iam.PolicyStatement("]
      ++ cdkPyStmtLines "  " 3 s ++ [strRepeat "  " 2 ++ "),"]).count "    ),"
      = 1 := by
  rw [List.count_append, List.count_append,
    List.count_eq_zero.mpr (closerC_not_mem_py s)]
  decide

theorem pyBlock_count_nc (s : Statement) :
    ([strRepeat "  " 2 ++ "iam.PolicyStatement("]
      ++ cdkPyStmtLines "  " 3 s ++ [strRepeat "  " 2 ++ "),"]).count "    )"
      = 0 := by
  rw [List.count_append, List.count_append,
    List.count_eq_zero.mpr (closerNC_not_mem_py s)]
  decide

theorem pyBlock_last (s : Statement) :
    ∃ pre, ([strRepeat "  " 2 ++ "iam.PolicyStatement("]
      ++ cdkPyStmtLines "  " 3 s ++ [strRepeat "  " 2 ++ "),"]) = pre ++ ["    ),"] := by
  refine ⟨[strRepeat "  " 2 ++ "iam.PolicyStatement("] ++ cdkPyStmtLines "  " 3 s, ?_⟩
  have hcl : [strRepeat "  " 2 ++ "),"] = ["    ),"] := by decide
  rw [hcl, List.append_assoc]

/-- C7 (amended): for a non-empty statement list the cdk-ts output has
exactly one closing statement line without a trailing comma, all other
closing lines carry the comma, and the comma-free closer is the last
statement line (immediately before the list and document closers); the
cdk-py output instead closes every statement — including the last — with
a trailing comma `),`, so the no-trailing-comma claim fails for cdk-py. -/
theorem cdk_statement_closers (ss : List Statement) (h : ss ≠ []) :
    ((CdkTypescriptConverter.convert { statements := ss }
        (StringBuffer.new none none) none).buffer.count "    \x7d)" = 1)
    ∧ ((CdkTypescriptConverter.convert { statements := ss }
        (StringBuffer.new none none) none).buffer.count "    \x7d)," = ss.length - 1)
    ∧ (∃ pre, (CdkTypescriptConverter.convert { statements := ss }
        (StringBuffer.new none none) none).buffer
        = pre ++ ["    \x7d)", "  ]", "\x7d);"])
    ∧ ((CdkPythonConverter.convert { statements := ss }
        (StringBuffer.new none none)).buffer.count "    )," = ss.length)
    ∧ ((CdkPythonConverter.convert { statements := ss }
        (StringBuffer.new none none)).buffer.count "    )" = 0)
    ∧ (∃ pre, (CdkPythonConverter.convert { statements := ss }
        (StringBuffer.new none none)).buffer
        = pre ++ ["    ),", "  ],", ")"]) := by
  obtain ⟨hts1, hts2, hts3⟩ := blocks_facts_enum
    (fun ist => [strRepeat "  " 2 ++ "new iam.PolicyStatement(\x7b"]
        ++ cdkTsStmtLines "  " 3 ist.2
        ++ (if ist.1 = ss.length - 1 then [strRepeat "  " 2 ++ "\x7d)"]
            else [strRepeat "  " 2 ++ "\x7d),"]))
    "    \x7d)" "    \x7d)," ss.length
    (fun i s => tsBlock_count_nc (ss.length - 1) i s)
    (fun i s => tsBlock_count_c (ss.length - 1) i s)
    (fun s => tsBlock_last (ss.length - 1) s)
    ss 0 (by omega) h
  obtain ⟨hpy1, hpy2, hpy3⟩ := blocks_facts_plain
    (fun s => [strRepeat "  " 2 ++ "iam.PolicyStatement("]
        ++ cdkPyStmtLines "  " 3 s ++ [strRepeat "  " 2 ++ "),"])
    "    )," "    )"
    pyBlock_count_c pyBlock_count_nc pyBlock_last ss
  have hFts : List.count "    \x7d)"
      [strRepeat "  " 0 ++ ("const " ++ CdkTypescriptConverter.resolveVariableName none
          ++ " = new iam.PolicyDocument(\x7b"),
       strRepeat "  " 1 ++ "statements: ["] = 0 := by decide
  have hFts2 : List.count "    \x7d),"
      [strRepeat "  " 0 ++ ("const " ++ CdkTypescriptConverter.resolveVariableName none
          ++ " = new iam.PolicyDocument(\x7b"),
       strRepeat "  " 1 ++ "statements: ["] = 0 := by decide
  have hTts : List.count "    \x7d)"
      [strRepeat "  " 1 ++ "]", strRepeat "  " 0 ++ "\x7d);"] = 0 := by decide
  have hTts2 : List.count "    \x7d),"
      [strRepeat "  " 1 ++ "]", strRepeat "  " 0 ++ "\x7d);"] = 0 := by decide
  have hFpy : List.count "    ),"
      [strRepeat "  " 0 ++ "policy_document = iam.PolicyDocument(",
       strRepeat "  " 1 ++ "statements=["] = 0 := by decide
  have hFpy2 : List.count "    )"
      [strRepeat "  " 0 ++ "policy_document = iam.PolicyDocument(",
       strRepeat "  " 1 ++ "statements=["] = 0 := by decide
  have hTpy : List.count "    ),"
      [strRepeat "  " 1 ++ "],", strRepeat "  " 0 ++ ")"] = 0 := by decide
  have hTpy2 : List.count "    )"
      [strRepeat "  " 1 ++ "],", strRepeat "  " 0 ++ ")"] = 0 := by decide
  refine ⟨?_, ?_, ?_, ?_, ?_, ?_⟩
  · simp only [cdkTs_buffer]
    rw [cdkTsLines_parts, List.count_append, List.count_append, hts1, hFts, hTts]
  · simp only [cdkTs_buffer]
    rw [cdkTsLines_parts, List.count_append, List.count_append, hts2, hFts2, hTts2]
    omega
  · obtain ⟨pre, hpre⟩ := hts3
    simp only [cdkTs_buffer]
    rw [cdkTsLines_parts, hpre]
    refine ⟨[strRepeat "  " 0 ++ ("const "
        ++ CdkTypescriptConverter.resolveVariableName none
        ++ " = new iam.PolicyDocument(\x7b"),
      strRepeat "  " 1 ++ "statements: ["] ++ pre, ?_⟩
    have h1 : ["    \x7d)"] ++ [strRepeat "  " 1 ++ "]", strRepeat "  " 0 ++ "\x7d);"]
        = ["    \x7d)", "  ]", "\x7d);"] := by decide
    rw [← h1]
    simp [List.append_assoc]
  · simp only [cdkPy_buffer]
    rw [cdkPyLines_parts, List.count_append, List.count_append, hpy1, hFpy, hTpy]
    omega
  · simp only [cdkPy_buffer]
    rw [cdkPyLines_parts, List.count_append, List.count_append, hpy2, hFpy2, hTpy2]
  · obtain ⟨pre, hpre⟩ := hpy3 h
    simp only [cdkPy_buffer]
    rw [cdkPyLines_parts, hpre]
    refine ⟨[strRepeat "  " 0 ++ "policy_document = iam.PolicyDocument(",
      strRepeat "  " 1 ++ "statements=["] ++ pre, ?_⟩
    have h1 : ["    ),"] ++ [strRepeat "  " 1 ++ "],", strRepeat "  " 0 ++ ")"]
        = ["    ),", "  ],", ")"] := by decide
    rw [← h1]
    simp [List.append_assoc]

/-- C7 witness: with two (empty) statements, cdk-ts has one comma-free
closer (last) and one comma closer, while cdk-py has two comma closers
and no comma-free one. -/
theorem cdk_statement_closers_witness :
    ((CdkTypescriptConverter.convert { statements := [{}, {}] }
        (StringBuffer.new none none) none).buffer.count "    \x7d)" = 1)
    ∧ ((CdkTypescriptConverter.convert { statements := [{}, {}] }
        (StringBuffer.new none none) none).buffer.count "    \x7d)," = 1)
    ∧ (∃ pre, (CdkTypescriptConverter.convert { statements := [{}, {}] }
        (StringBuffer.new none none) none).buffer
        = pre ++ ["    \x7d)", "  ]", "\x7d);"])
    ∧ ((CdkPythonConverter.convert { statements := [{}, {}] }
        (StringBuffer.new none none)).buffer.count "    )," = 2)
    ∧ ((CdkPythonConverter.convert { statements := [{}, {}] }
        (StringBuffer.new none none)).buffer.count "    )" = 0)
    ∧ (∃ pre, (CdkPythonConverter.convert { statements := [{}, {}] }
        (StringBuffer.new none none)).buffer
        = pre ++ ["    ),", "  ],", ")"]) :=
  cdk_statement_closers [{}, {}] (by simp)

/-- C7 counterexample: with a single statement the cdk-py closing line of
the final (only) statement is `    ),` — it carries a trailing comma, and
no comma-free closer occurs, refuting the no-trailing-comma claim for
cdk-py. -/
theorem cdk_py_trailing_comma_counterexample :
    (CdkPythonConverter.convert { statements := [{}] }
        (StringBuffer.new none none)).buffer
      = ["policy_document = iam.PolicyDocument(", "  statements=[",
         "    iam.PolicyStatement(", "    ),", "  ],", ")"]
    ∧ "    )," ≠ "    )"
    ∧ (CdkPythonConverter.convert { statements := [{}] }
        (StringBuffer.new none none)).buffer.count "    )" = 0 :=
  ⟨by decide, by decide, by decide⟩
